import Mathlib

/-!
Event Notifications Firefox subscription: the cost resolver.

Shallow embedding of `internal/resources/ibm/en_subscription_firefox.go`.

* Go pointers (`*int64`, `*string`, `*decimal.Decimal`, `*schema.ProductFilter`, ...) are
  `Option` values, `nil` being `none`; dereferencing `nil` is the outcome `Except.error`.
* `int64` values are integers; theorems that quantify over usage values carry the `int64`
  range where the source type does.
* A `float64` obtained by converting an `int64` is an integer-valued real number, so the
  floating-point values handled by this file are represented by the integer they denote.
* The functions are embedded twice: on values, and as state transformers on a memory with a
  receiver struct, a package variable and a heap of allocated objects, where `&r.Plan` and
  the slice of the package variable are addresses. The second embedding refines the first.
-/

/-! ## Runtime outcomes -/

/-- Run-time panics of the Go program that this file models. -/
inductive Panic where
  | nilDereference
  deriving DecidableEq, Repr

/-! ## `float64` conversion and `math.Min` -/

/-- The conversion `float64(x)` of an integer: the value of the binary64 number nearest to `n`,
ties going to the even significand (53 significant bits). Magnitudes below `2^53` are exact;
a larger magnitude `a` with `2^(52+e) ≤ a < 2^(53+e)` is rounded to a multiple of `2^e`.
Overflow to infinity (magnitudes from `2^1024`) is out of reach of `int64` operands and of
the decimal candidates of `decimal.roundShortest`, and is not represented. -/
def float64 (n : Int) : Int :=
  let a := n.natAbs
  if a < 2 ^ 53 then n
  else
    let e := Nat.log2 a - 52
    let q := a / 2 ^ e
    let r := a % 2 ^ e
    let h := 2 ^ (e - 1)
    let q' := if h < r ∨ (r = h ∧ q % 2 = 1) then q + 1 else q
    Int.sign n * ((q' * 2 ^ e : Nat) : Int)

namespace math

/-- Go `math.Min` on finite operands: `if x < y { return x }; return y`. The special cases of
the library function (an infinite operand, a NaN, two zeros of different sign) need an
infinity, a NaN or a negative zero, none of which an `int64` conversion produces. -/
def Min (x y : Int) : Int := if x < y then x else y

end math

/-! ## `shopspring/decimal` -/

namespace decimal

/-- A `decimal.Decimal`: the number `value * 10 ^ exp`. -/
structure Decimal where
  value : Int
  exp : Int
  deriving DecidableEq, Repr

/-- Constructor `decimal.New(value, exp)`. -/
def New (value : Int) (exp : Int) : Decimal := { value := value, exp := exp }

/-- Constructor `decimal.NewFromInt(value)`: the integer with exponent 0. -/
def NewFromInt (value : Int) : Decimal := { value := value, exp := 0 }

/-- Method `Decimal.Cmp`: compares the numbers denoted, after rescaling both operands to the
smaller of the two exponents. The result is `-1`, `0` or `1`. -/
def Decimal.Cmp (d d2 : Decimal) : Int :=
  let e := min d.exp d2.exp
  let v := d.value * 10 ^ (d.exp - e).toNat
  let v2 := d2.value * 10 ^ (d2.exp - e).toNat
  if v < v2 then -1 else if v = v2 then 0 else 1

/-- Method `Decimal.Equal`: equality of the numbers denoted (`Cmp` is 0). -/
def Decimal.Equal (d d2 : Decimal) : Bool := d.Cmp d2 == 0

/-- Method `Decimal.IntPart`: the integer part of the number, the quotient being truncated
toward zero when the exponent is negative. -/
def Decimal.IntPart (d : Decimal) : Int :=
  if 0 ≤ d.exp then d.value * 10 ^ d.exp.toNat else Int.tdiv d.value (10 ^ (-d.exp).toNat)

/-- Digit count of `a` in base 10, by repeated division (at most `fuel` digits). -/
def numDigitsAux : Nat → Nat → Nat
  | 0, _ => 0
  | fuel + 1, a => if a = 0 then 0 else numDigitsAux fuel (a / 10) + 1

/-- Number of decimal digits of a natural number (0 for 0). -/
def numDigits (a : Nat) : Nat := numDigitsAux a a

/-- Shortest decimal that converts back to the float of magnitude `a`. With the `e + 1` low
digits dropped, the candidates are the truncation `m * 10 ^ (e + 1)` and its successor
`(m + 1) * 10 ^ (e + 1)`; the search goes from the coarsest position to finer ones and stops
at the first position where a candidate converts back to `a`, taking the nearer candidate when
both do (a tie going to the even last digit). The result is the pair (digits, exponent); with
no digit dropped the digits are those of `a` itself. -/
def roundShortest (a : Nat) : Nat → Nat × Nat
  | 0 => (a, 0)
  | e + 1 =>
    let p := 10 ^ (e + 1)
    let m := a / p
    let r := a % p
    let okdown := float64 ((m * p : Nat) : Int) = (a : Int)
    let okup := float64 (((m + 1) * p : Nat) : Int) = (a : Int)
    if okdown ∧ okup then
      (if p < 2 * r ∨ (2 * r = p ∧ m % 2 = 1) then (m + 1, e + 1) else (m, e + 1))
    else if okdown then (m, e + 1)
    else if okup then (m + 1, e + 1)
    else roundShortest a e

/-- Constructor `decimal.NewFromFloat(value)` on an integer-valued `float64`: zero is
`New(0, 0)`; any other value is the decimal with the fewest significant digits that converts
back to the same `float64`, with the sign of the value. -/
def NewFromFloat (f : Int) : Decimal :=
  if f = 0 then New 0 0
  else
    let a := f.natAbs
    let s := roundShortest a (numDigits a)
    { value := if f < 0 then -(s.1 : Int) else (s.1 : Int), exp := (s.2 : Int) }

end decimal

/-! ## `internal/schema` -/

namespace schema

open decimal

/-- Value types of a usage item (`schema.UsageVariableType`). -/
inductive UsageVariableType where
  | Int64
  | String
  | Float64
  | StringArray
  | SubResourceUsage
  | KeyValueMap
  deriving DecidableEq, Repr

/-- Modelled from the spec: `schema.UsageItem`, a static declaration of a meter: key, default
value and value type. -/
structure UsageItem where
  Key : String
  DefaultValue : Int
  ValueType : UsageVariableType
  deriving DecidableEq, Repr

/-- Modelled from the spec: `schema.AttributeFilter`, an attribute constraint of a product
filter: the attribute key with an exact value or a regular expression. -/
structure AttributeFilter where
  Key : String
  Value : Option String := none
  ValueRegex : Option String := none
  deriving DecidableEq, Repr

/-- Modelled from the spec: `schema.ProductFilter`: vendor, service, region and a list of
attribute constraints. A field left out of a composite literal is `nil`. -/
structure ProductFilter where
  VendorName : Option String := none
  Service : Option String := none
  Region : Option String := none
  AttributeFilters : List AttributeFilter := []
  deriving DecidableEq, Repr

/-- Modelled from the spec: `schema.PriceFilter`: optional narrowing by a unit label. -/
structure PriceFilter where
  Unit : Option String := none
  deriving DecidableEq, Repr

/-- Modelled from the spec: `schema.CostComponent`, the output descriptor. The defaults are
the Go zero values of a composite literal; `customPrice` is unexported and written by
`SetCustomPrice` only. -/
structure CostComponent where
  Name : String := ""
  Unit : String := ""
  UnitMultiplier : Decimal := { value := 0, exp := 0 }
  MonthlyQuantity : Option Decimal := none
  ProductFilter : Option ProductFilter := none
  PriceFilter : Option PriceFilter := none
  customPrice : Option Decimal := none
  deriving DecidableEq, Repr

/-- Modelled from the spec: method `SetCustomPrice`, which stores the override price that
bypasses the catalog lookup. -/
def CostComponent.SetCustomPrice (c : CostComponent) (price : Option Decimal) : CostComponent :=
  { c with customPrice := price }

/-- Modelled from the spec: `schema.Resource`, the result of `BuildResource`: name, usage
schema and the ordered cost components. -/
structure Resource where
  Name : String
  UsageSchema : List UsageItem
  CostComponents : List CostComponent
  deriving DecidableEq, Repr

/-- Modelled from the spec: `schema.UsageData`, the usage data supplied for one resource: a
mapping from meter key to an optional integer, a key without entry being mapped to `none`. -/
structure UsageData where
  Attributes : String → Option Int

end schema

/-! ## `internal/resources` -/

namespace resources

/-- Modelled from the spec: `resources.PopulateArgsWithUsage`, which is not part of the source
file. For every field of the struct tagged as a usage meter it looks the key of the tag up in
the usage data: an entry is stored in the field, a key without entry leaves the field as it
is, and keys of the usage data that no field declares are not looked at. The tagged fields
of the struct are given as a table of tag key and setter, in field order. A nil usage data
holds no entry. -/
def PopulateArgsWithUsage {α : Type} (fields : List (String × (α → Int → α))) (args : α)
    (u : Option schema.UsageData) : α :=
  match u with
  | none => args
  | some d =>
    fields.foldl
      (fun a kf =>
        match d.Attributes kf.1 with
        | some v => kf.2 a v
        | none => a)
      args

end resources

/-! ## `internal/resources/ibm` -/

namespace ibm

open decimal schema

/-- Modelled from the spec: package helper `strPtr`, the address of a copy of the string. -/
def strPtr (s : String) : Option String := some s

/-- Modelled from the spec: package helper `decimalPtr`, the address of a copy of the
decimal. -/
def decimalPtr (d : Decimal) : Option Decimal := some d

/-- The resource struct `EnSubscriptionFirefox`. The usage field is a `*int64`. -/
structure EnSubscriptionFirefox where
  Address : String
  Region : String
  Name : String
  Plan : String
  EnSubscriptionFirefox_OutboundPushMessages : Option Int
  deriving DecidableEq, Repr

/-- The usage schema of `EnSubscriptionFirefox`: one meter. -/
def EnSubscriptionFirefoxUsageSchema : List UsageItem :=
  [{ Key := "event-notifications_OUTBOUND_DIGITAL_MESSAGES_PUSH", DefaultValue := 0,
     ValueType := UsageVariableType.Int64 }]

/-- The cost component of the outbound push messages meter. The lite branch dereferences the
usage pointer without a nil test; the standard branch tests it; the last branch does not read
it. -/
def EnSubscriptionFirefoxOutboundPushMessagesCostComponent (r : EnSubscriptionFirefox) :
    Except Panic CostComponent :=
  let component_name := "Outbound Firefox Push Messages"
  let component_unit := "Messages"
  if r.Plan = "lite" then
    match r.EnSubscriptionFirefox_OutboundPushMessages with
    | none => Except.error Panic.nilDereference
    | some u =>
      let quantity := math.Min (float64 u) (float64 1000)
      let costComponent : CostComponent :=
        { Name := component_name ++ " (Lite plan) (Max. 1,000 per destination)"
          Unit := component_unit
          UnitMultiplier := NewFromInt 1
          MonthlyQuantity := decimalPtr (NewFromFloat quantity)
          ProductFilter := some
            { VendorName := strPtr "ibm"
              Region := strPtr r.Region
              Service := strPtr "event-notifications" } }
      Except.ok (costComponent.SetCustomPrice (decimalPtr (NewFromInt 0)))
  else if r.Plan = "standard" then
    let quantity : Option Decimal :=
      match r.EnSubscriptionFirefox_OutboundPushMessages with
      | some u => decimalPtr (NewFromInt u)
      | none => none
    Except.ok
      { Name := component_name ++ " (Standard plan)"
        Unit := component_unit
        UnitMultiplier := NewFromInt 1
        MonthlyQuantity := quantity
        ProductFilter := some
          { VendorName := strPtr "ibm"
            Region := strPtr r.Region
            Service := strPtr "event-notifications"
            AttributeFilters := [{ Key := "planName", Value := some r.Plan }] }
        PriceFilter := some { Unit := strPtr "OUTBOUND_DIGITAL_MESSAGES_PUSH" } }
  else
    let costComponent : CostComponent :=
      { Name := "Plan " ++ r.Plan ++ " not found"
        UnitMultiplier := NewFromInt 1
        MonthlyQuantity := decimalPtr (NewFromInt 1)
        ProductFilter := some
          { VendorName := strPtr "ibm"
            Region := strPtr r.Region
            Service := strPtr "event-notifications"
            AttributeFilters := [{ Key := "planName", Value := some r.Plan }] } }
    Except.ok (costComponent.SetCustomPrice (decimalPtr (NewFromInt 0)))

/-- Method `BuildResource`: the resource named by the address, with the usage schema and the
single cost component. A panic of the cost component function propagates. -/
def BuildResource (r : EnSubscriptionFirefox) : Except Panic Resource :=
  match EnSubscriptionFirefoxOutboundPushMessagesCostComponent r with
  | Except.error p => Except.error p
  | Except.ok c =>
    Except.ok
      { Name := r.Address
        UsageSchema := EnSubscriptionFirefoxUsageSchema
        CostComponents := [c] }

/-- The fields of `EnSubscriptionFirefox` that carry an `infracost_usage` struct tag, with
the key of the tag and the assignment of a value to the `*int64` field. -/
def usageFields : List (String × (EnSubscriptionFirefox → Int → EnSubscriptionFirefox)) :=
  [("event-notifications_OUTBOUND_DIGITAL_MESSAGES_PUSH",
    fun r v => { r with EnSubscriptionFirefox_OutboundPushMessages := some v })]

/-- Method `PopulateUsage`: the struct after `resources.PopulateArgsWithUsage(r, u)` has
written through the pointer receiver. -/
def PopulateUsage (r : EnSubscriptionFirefox) (u : Option UsageData) : EnSubscriptionFirefox :=
  resources.PopulateArgsWithUsage usageFields r u

end ibm


/-! ## Memory model -/

namespace heap

/-- A `*string`: the address of the `Plan` field of the receiver struct (the value of
`&r.Plan`) or the address of a string cell of the heap. -/
inductive StringPtr where
  | receiverPlan
  | cell (a : Nat)
  deriving DecidableEq, Repr

/-- A `schema.AttributeFilter` as stored: its `*string` fields are addresses. -/
structure AttributeFilter where
  Key : String
  Value : Option StringPtr := none
  ValueRegex : Option StringPtr := none
  deriving DecidableEq, Repr

/-- A `schema.ProductFilter` as stored. The slice `AttributeFilters` is the address of its
backing array of pointers, `none` being the nil slice. -/
structure ProductFilter where
  VendorName : Option StringPtr := none
  Service : Option StringPtr := none
  Region : Option StringPtr := none
  AttributeFilters : Option Nat := none
  deriving DecidableEq, Repr

/-- A `schema.PriceFilter` as stored. -/
structure PriceFilter where
  Unit : Option StringPtr := none
  deriving DecidableEq, Repr

/-- A `schema.CostComponent` as stored: the `*decimal.Decimal`, `*schema.ProductFilter` and
`*schema.PriceFilter` fields are addresses. -/
structure CostComponent where
  Name : String := ""
  Unit : String := ""
  UnitMultiplier : decimal.Decimal := { value := 0, exp := 0 }
  MonthlyQuantity : Option Nat := none
  ProductFilter : Option Nat := none
  PriceFilter : Option Nat := none
  customPrice : Option Nat := none
  deriving DecidableEq, Repr

/-- Method `SetCustomPrice` on a stored cost component: one assignment to `customPrice`. -/
def CostComponent.SetCustomPrice (c : CostComponent) (price : Option Nat) : CostComponent :=
  { c with customPrice := price }

/-- A `schema.Resource` as stored: both slices are addresses of backing arrays. -/
structure Resource where
  Name : String
  UsageSchema : Option Nat
  CostComponents : Option Nat
  deriving DecidableEq, Repr

/-- The objects of the heap. `pointers` is the backing array of a slice of pointers. -/
inductive Object where
  | string (s : String)
  | decimal (d : decimal.Decimal)
  | usageItem (u : schema.UsageItem)
  | attributeFilter (f : AttributeFilter)
  | productFilter (f : ProductFilter)
  | priceFilter (f : PriceFilter)
  | costComponent (c : CostComponent)
  | resource (r : Resource)
  | pointers (elems : List Nat)
  deriving DecidableEq, Repr

/-- The memory that a call can read and write: the struct that the receiver `r` points to
(the `int64` cell behind its usage pointer is kept with the struct, `none` being the nil
pointer), the package variable `EnSubscriptionFirefoxUsageSchema` (a slice), and the heap, in
which the address of an object is its position. -/
structure Memory where
  receiver : ibm.EnSubscriptionFirefox
  EnSubscriptionFirefoxUsageSchema : Option Nat
  objects : List Object
  deriving DecidableEq, Repr

/-- Executions: a state transformer on the memory that may panic. -/
abbrev Exec := StateT Memory (Except Panic)

/-- Allocation of a new object: it is put behind the objects that exist, whose addresses and
contents stay as they are, and its address is returned. -/
def alloc (o : Object) : Exec Nat := do
  let m ← get
  set { m with objects := m.objects ++ [o] }
  return m.objects.length

/-- All the values of a list of lookups, if none of them fails. -/
def allSome {α : Type} : List (Option α) → Option (List α)
  | [] => some []
  | none :: _ => none
  | some a :: xs => (allSome xs).map (fun as => a :: as)

/-- The string that a `*string` points to. -/
def Memory.string (m : Memory) : StringPtr → Option String
  | StringPtr.receiverPlan => some m.receiver.Plan
  | StringPtr.cell a =>
    match m.objects[a]? with
    | some (Object.string s) => some s
    | _ => none

/-- The value of a `*string` field: nil, or the string pointed to. The outer `none` is a
dangling address. -/
def Memory.optString (m : Memory) : Option StringPtr → Option (Option String)
  | none => some none
  | some p => (m.string p).map some

/-- The value of a `*decimal.Decimal` field. -/
def Memory.optDecimal (m : Memory) : Option Nat → Option (Option decimal.Decimal)
  | none => some none
  | some a =>
    match m.objects[a]? with
    | some (Object.decimal d) => some (some d)
    | _ => none

/-- The attribute filter at an address, with its strings read. -/
def Memory.attributeFilter (m : Memory) (a : Nat) : Option schema.AttributeFilter :=
  match m.objects[a]? with
  | some (Object.attributeFilter f) =>
    match m.optString f.Value, m.optString f.ValueRegex with
    | some v, some vr => some { Key := f.Key, Value := v, ValueRegex := vr }
    | _, _ => none
  | _ => none

/-- The elements of a slice of attribute filters; the nil slice has none. -/
def Memory.attributeFilters (m : Memory) : Option Nat → Option (List schema.AttributeFilter)
  | none => some []
  | some a =>
    match m.objects[a]? with
    | some (Object.pointers elems) => allSome (elems.map m.attributeFilter)
    | _ => none

/-- The value of a `*schema.ProductFilter` field. -/
def Memory.optProductFilter (m : Memory) : Option Nat → Option (Option schema.ProductFilter)
  | none => some none
  | some a =>
    match m.objects[a]? with
    | some (Object.productFilter f) =>
      match m.optString f.VendorName, m.optString f.Service, m.optString f.Region,
        m.attributeFilters f.AttributeFilters with
      | some v, some s, some r, some fs =>
        some (some { VendorName := v, Service := s, Region := r, AttributeFilters := fs })
      | _, _, _, _ => none
    | _ => none

/-- The value of a `*schema.PriceFilter` field. -/
def Memory.optPriceFilter (m : Memory) : Option Nat → Option (Option schema.PriceFilter)
  | none => some none
  | some a =>
    match m.objects[a]? with
    | some (Object.priceFilter f) =>
      match m.optString f.Unit with
      | some u => some (some { Unit := u })
      | none => none
    | _ => none

/-- The descriptor that a `*schema.CostComponent` points to, every pointer in it followed. -/
def Memory.costComponent (m : Memory) (a : Nat) : Option schema.CostComponent :=
  match m.objects[a]? with
  | some (Object.costComponent c) =>
    match m.optDecimal c.MonthlyQuantity, m.optProductFilter c.ProductFilter,
      m.optPriceFilter c.PriceFilter, m.optDecimal c.customPrice with
    | some q, some pf, some prf, some cp =>
      some { Name := c.Name, Unit := c.Unit, UnitMultiplier := c.UnitMultiplier,
             MonthlyQuantity := q, ProductFilter := pf, PriceFilter := prf, customPrice := cp }
    | _, _, _, _ => none
  | _ => none

/-- The elements of a slice of cost components. -/
def Memory.costComponents (m : Memory) : Option Nat → Option (List schema.CostComponent)
  | none => some []
  | some a =>
    match m.objects[a]? with
    | some (Object.pointers elems) => allSome (elems.map m.costComponent)
    | _ => none

/-- The usage item at an address. -/
def Memory.usageItem (m : Memory) (a : Nat) : Option schema.UsageItem :=
  match m.objects[a]? with
  | some (Object.usageItem u) => some u
  | _ => none

/-- The elements of a slice of usage items. -/
def Memory.usageItems (m : Memory) : Option Nat → Option (List schema.UsageItem)
  | none => some []
  | some a =>
    match m.objects[a]? with
    | some (Object.pointers elems) => allSome (elems.map m.usageItem)
    | _ => none

/-- The resource that a `*schema.Resource` points to, every pointer in it followed. -/
def Memory.resource (m : Memory) (a : Nat) : Option schema.Resource :=
  match m.objects[a]? with
  | some (Object.resource r) =>
    match m.usageItems r.UsageSchema, m.costComponents r.CostComponents with
    | some us, some cs => some { Name := r.Name, UsageSchema := us, CostComponents := cs }
    | _, _ => none
  | _ => none

/-- The memory at program start for a receiver struct `r`: the package variable
`EnSubscriptionFirefoxUsageSchema` is the slice of its one declared usage item. -/
def Memory.initial (r : ibm.EnSubscriptionFirefox) : Memory :=
  { receiver := r
    EnSubscriptionFirefoxUsageSchema := some 1
    objects :=
      [Object.usageItem
        { Key := "event-notifications_OUTBOUND_DIGITAL_MESSAGES_PUSH", DefaultValue := 0,
          ValueType := schema.UsageVariableType.Int64 },
       Object.pointers [0]] }

end heap

namespace ibm

namespace onHeap

open decimal heap

/-- Package helper `strPtr` on the heap: a new string cell holding a copy of `s`. -/
def strPtr (s : String) : Exec StringPtr := do
  let a ← alloc (Object.string s)
  return StringPtr.cell a

/-- Package helper `decimalPtr` on the heap: a new decimal cell holding a copy of `d`. -/
def decimalPtr (d : Decimal) : Exec Nat := alloc (Object.decimal d)

/-- The cost component function as a state transformer, statement by statement: the fields
of the receiver are read from the memory, every `strPtr`, `decimalPtr`, `&T{...}` and slice
literal allocates, `Value: &r.Plan` stores the address of the receiver field, and
`return &costComponent` moves the local variable to the heap. -/
def EnSubscriptionFirefoxOutboundPushMessagesCostComponent : Exec Nat := do
  let component_name := "Outbound Firefox Push Messages"
  let component_unit := "Messages"
  if (← get).receiver.Plan = "lite" then
    match (← get).receiver.EnSubscriptionFirefox_OutboundPushMessages with
    | none => throw Panic.nilDereference
    | some u =>
      let quantity := math.Min (float64 u) (float64 1000)
      let monthlyQuantity ← decimalPtr (NewFromFloat quantity)
      let vendorName ← strPtr "ibm"
      let region ← strPtr (← get).receiver.Region
      let service ← strPtr "event-notifications"
      let productFilter ← alloc (Object.productFilter
        { VendorName := some vendorName, Region := some region, Service := some service })
      let costComponent : heap.CostComponent :=
        { Name := component_name ++ " (Lite plan) (Max. 1,000 per destination)"
          Unit := component_unit
          UnitMultiplier := NewFromInt 1
          MonthlyQuantity := some monthlyQuantity
          ProductFilter := some productFilter }
      let customPrice ← decimalPtr (NewFromInt 0)
      alloc (Object.costComponent (costComponent.SetCustomPrice (some customPrice)))
  else if (← get).receiver.Plan = "standard" then
    let quantity : Option Nat ←
      match (← get).receiver.EnSubscriptionFirefox_OutboundPushMessages with
      | some u => do
        let a ← decimalPtr (NewFromInt u)
        pure (some a)
      | none => pure none
    let vendorName ← strPtr "ibm"
    let region ← strPtr (← get).receiver.Region
    let service ← strPtr "event-notifications"
    let attributeFilter ← alloc (Object.attributeFilter
      { Key := "planName", Value := some StringPtr.receiverPlan })
    let attributeFilters ← alloc (Object.pointers [attributeFilter])
    let productFilter ← alloc (Object.productFilter
      { VendorName := some vendorName, Region := some region, Service := some service,
        AttributeFilters := some attributeFilters })
    let unit ← strPtr "OUTBOUND_DIGITAL_MESSAGES_PUSH"
    let priceFilter ← alloc (Object.priceFilter { Unit := some unit })
    alloc (Object.costComponent
      { Name := component_name ++ " (Standard plan)"
        Unit := component_unit
        UnitMultiplier := NewFromInt 1
        MonthlyQuantity := quantity
        ProductFilter := some productFilter
        PriceFilter := some priceFilter })
  else
    let name := "Plan " ++ (← get).receiver.Plan ++ " not found"
    let monthlyQuantity ← decimalPtr (NewFromInt 1)
    let vendorName ← strPtr "ibm"
    let region ← strPtr (← get).receiver.Region
    let service ← strPtr "event-notifications"
    let attributeFilter ← alloc (Object.attributeFilter
      { Key := "planName", Value := some StringPtr.receiverPlan })
    let attributeFilters ← alloc (Object.pointers [attributeFilter])
    let productFilter ← alloc (Object.productFilter
      { VendorName := some vendorName, Region := some region, Service := some service,
        AttributeFilters := some attributeFilters })
    let costComponent : heap.CostComponent :=
      { Name := name
        UnitMultiplier := NewFromInt 1
        MonthlyQuantity := some monthlyQuantity
        ProductFilter := some productFilter }
    let customPrice ← decimalPtr (NewFromInt 0)
    alloc (Object.costComponent (costComponent.SetCustomPrice (some customPrice)))

/-- Method `BuildResource` as a state transformer: the slice literal of the one cost
component, then `&schema.Resource{...}`, whose `UsageSchema` is the slice held by the package
variable (the same backing array, not a copy of the items). -/
def BuildResource : Exec Nat := do
  let costComponent ← EnSubscriptionFirefoxOutboundPushMessagesCostComponent
  let costComponents ← alloc (Object.pointers [costComponent])
  let m ← get
  alloc (Object.resource
    { Name := m.receiver.Address
      UsageSchema := m.EnSubscriptionFirefoxUsageSchema
      CostComponents := some costComponents })

end onHeap

end ibm


/-! ## Conversion lemmas -/

theorem float64_exact (n : Int) (h : n.natAbs < 2 ^ 53) : float64 n = n := by
  unfold float64
  simp only [h, if_true]

theorem float64_exact_nat (a : Nat) (h : a < 2 ^ 53) : float64 (a : Int) = (a : Int) :=
  float64_exact _ (by rw [Int.natAbs_ofNat]; exact h)

theorem float64_large (a : Nat) (h : 2 ^ 53 ≤ a) : (2 ^ 53 : Int) ≤ float64 (a : Int) := by
  have hpos : 0 < a := lt_of_lt_of_le (by positivity) h
  have hne : a ≠ 0 := Nat.pos_iff_ne_zero.mp hpos
  have hlog : 53 ≤ Nat.log2 a := (Nat.le_log2 hne).mpr h
  have hle : 2 ^ Nat.log2 a ≤ a := Nat.log2_self_le hne
  unfold float64
  simp only [Int.natAbs_ofNat, not_lt.mpr h, if_false]
  have hs : Int.sign (a : Int) = 1 := Int.sign_eq_one_of_pos (by exact_mod_cast hpos)
  rw [hs, one_mul]
  set e := Nat.log2 a - 52 with he
  have hq : 2 ^ 52 ≤ a / 2 ^ e := by
    rw [Nat.le_div_iff_mul_le (by positivity), ← pow_add]
    have : 52 + e = Nat.log2 a := by omega
    rw [this]; exact hle
  have he1 : 2 ^ 1 ≤ 2 ^ e := Nat.pow_le_pow_right (by norm_num) (by omega)
  have hq' : a / 2 ^ e ≤
      (if 2 ^ (e - 1) < a % 2 ^ e ∨ (a % 2 ^ e = 2 ^ (e - 1) ∧ a / 2 ^ e % 2 = 1)
        then a / 2 ^ e + 1 else a / 2 ^ e) := by
    split <;> omega
  have : 2 ^ 53 ≤ (if 2 ^ (e - 1) < a % 2 ^ e ∨ (a % 2 ^ e = 2 ^ (e - 1) ∧ a / 2 ^ e % 2 = 1)
        then a / 2 ^ e + 1 else a / 2 ^ e) * 2 ^ e := by
    calc 2 ^ 53 = 2 ^ 52 * 2 ^ 1 := by norm_num
      _ ≤ (a / 2 ^ e) * 2 ^ e := Nat.mul_le_mul hq he1
      _ ≤ _ := Nat.mul_le_mul_right _ hq'
  exact_mod_cast this

namespace decimal

theorem roundShortest_exact (a : Nat) (h : a < 2 ^ 53) (e : Nat) :
    (roundShortest a e).1 * 10 ^ (roundShortest a e).2 = a := by
  induction e with
  | zero => simp [roundShortest]
  | succ e ih =>
    have hp : 0 < 10 ^ (e + 1) := by positivity
    have hlo : a / 10 ^ (e + 1) * 10 ^ (e + 1) ≤ a := Nat.div_mul_le_self a _
    have hhi : a < (a / 10 ^ (e + 1) + 1) * 10 ^ (e + 1) := by
      have := Nat.lt_div_mul_add (a := a) hp
      rw [add_mul, one_mul]; exact this
    have hup : ¬ float64 (((a / 10 ^ (e + 1) + 1) * 10 ^ (e + 1) : Nat) : Int) = (a : Int) := by
      intro hc
      by_cases hb : (a / 10 ^ (e + 1) + 1) * 10 ^ (e + 1) < 2 ^ 53
      · rw [float64_exact_nat _ hb] at hc
        have : (a / 10 ^ (e + 1) + 1) * 10 ^ (e + 1) = a := by exact_mod_cast hc
        omega
      · have := float64_large _ (not_lt.mp hb)
        rw [hc] at this
        have : 2 ^ 53 ≤ a := by exact_mod_cast this
        omega
    have hdown : float64 ((a / 10 ^ (e + 1) * 10 ^ (e + 1) : Nat) : Int) = (a : Int) →
        a / 10 ^ (e + 1) * 10 ^ (e + 1) = a := by
      intro hc
      rw [float64_exact_nat _ (lt_of_le_of_lt hlo h)] at hc
      exact_mod_cast hc
    unfold roundShortest
    simp only [hup, and_false, if_false]
    split
    · next hd => exact hdown hd
    · exact ih

theorem NewFromFloat_Equal_NewFromInt (f : Int) (h : f.natAbs < 2 ^ 53) :
    (NewFromFloat f).Equal (NewFromInt f) = true := by
  unfold NewFromFloat
  by_cases h0 : f = 0
  · subst h0; decide
  · simp only [h0, if_false]
    have hs := roundShortest_exact f.natAbs h (numDigits f.natAbs)
    set s := roundShortest f.natAbs (numDigits f.natAbs) with hsdef
    have hs' : (s.1 : Int) * 10 ^ s.2 = (f.natAbs : Int) := by exact_mod_cast hs
    simp only [Decimal.Equal, Decimal.Cmp, NewFromInt]
    have hmin : min (s.2 : Int) 0 = 0 := min_eq_right (by positivity)
    simp only [hmin, sub_zero, Int.toNat_ofNat, Int.toNat_zero, pow_zero, mul_one]
    by_cases hneg : f < 0
    · simp only [hneg, if_true]
      have : -(s.1 : Int) * 10 ^ s.2 = f := by
        rw [neg_mul, hs']; omega
      simp [this]
    · simp only [hneg, if_false]
      have : (s.1 : Int) * 10 ^ s.2 = f := by
        rw [hs']; omega
      simp [this]

theorem NewFromFloat_IntPart (f : Int) (h : f.natAbs < 2 ^ 53) :
    (NewFromFloat f).IntPart = f := by
  unfold NewFromFloat
  by_cases h0 : f = 0
  · subst h0; decide
  · simp only [h0, if_false]
    have hs := roundShortest_exact f.natAbs h (numDigits f.natAbs)
    set s := roundShortest f.natAbs (numDigits f.natAbs) with hsdef
    have hs' : (s.1 : Int) * 10 ^ s.2 = (f.natAbs : Int) := by exact_mod_cast hs
    have hexp : (0 : Int) ≤ (s.2 : Int) := by positivity
    simp only [Decimal.IntPart, hexp, if_true, Int.toNat_ofNat]
    by_cases hneg : f < 0
    · simp only [hneg, if_true]
      rw [neg_mul, hs']; omega
    · simp only [hneg, if_false]
      rw [hs']; omega

end decimal

namespace math

theorem Min_float64_cap (u : Int) (h0 : 0 ≤ u) :
    Min (float64 u) (float64 1000) = min u 1000 := by
  have hc : float64 1000 = 1000 := float64_exact 1000 (by decide)
  rw [hc]
  unfold Min
  by_cases hb : u.natAbs < 2 ^ 53
  · rw [float64_exact u hb]
    split
    · next hlt => exact (min_eq_left (le_of_lt hlt)).symm
    · next hge => exact (min_eq_right (not_lt.mp hge)).symm
  · have hbig : (2 ^ 53 : Int) ≤ float64 u := by
      have := float64_large u.natAbs (not_lt.mp hb)
      rwa [Int.natAbs_of_nonneg h0] at this
    have hu : (2 ^ 53 : Int) ≤ u := by omega
    have h1 : ¬ float64 u < 1000 := by
      intro hlt
      have : (2 ^ 53 : Int) < 1000 := lt_of_le_of_lt hbig hlt
      omega
    rw [if_neg h1]
    exact (min_eq_right (by omega)).symm

end math

namespace ibm

open decimal schema

/-- The descriptor of the lite branch when the usage field is set: the quantity is the
decimal of the capped float. -/
theorem lite_costComponent (r : EnSubscriptionFirefox) (u : Int) (hplan : r.Plan = "lite")
    (husage : r.EnSubscriptionFirefox_OutboundPushMessages = some u) :
    EnSubscriptionFirefoxOutboundPushMessagesCostComponent r = Except.ok
      { Name := "Outbound Firefox Push Messages (Lite plan) (Max. 1,000 per destination)"
        Unit := "Messages"
        UnitMultiplier := NewFromInt 1
        MonthlyQuantity := some (NewFromFloat (math.Min (float64 u) (float64 1000)))
        ProductFilter := some
          { VendorName := some "ibm", Region := some r.Region,
            Service := some "event-notifications" }
        customPrice := some (NewFromInt 0) } := by
  unfold EnSubscriptionFirefoxOutboundPushMessagesCostComponent
  simp only [hplan, husage, if_true, CostComponent.SetCustomPrice, strPtr, decimalPtr]
  rfl

/-- The descriptor of the standard branch. -/
theorem standard_costComponent (r : EnSubscriptionFirefox) (hplan : r.Plan = "standard") :
    EnSubscriptionFirefoxOutboundPushMessagesCostComponent r = Except.ok
      { Name := "Outbound Firefox Push Messages (Standard plan)"
        Unit := "Messages"
        UnitMultiplier := NewFromInt 1
        MonthlyQuantity := r.EnSubscriptionFirefox_OutboundPushMessages.map NewFromInt
        ProductFilter := some
          { VendorName := some "ibm", Region := some r.Region,
            Service := some "event-notifications",
            AttributeFilters := [{ Key := "planName", Value := some r.Plan }] }
        PriceFilter := some { Unit := some "OUTBOUND_DIGITAL_MESSAGES_PUSH" } } := by
  unfold EnSubscriptionFirefoxOutboundPushMessagesCostComponent
  have hne : ¬ r.Plan = "lite" := by rw [hplan]; decide
  simp only [hne, hplan, if_true, if_false, strPtr, decimalPtr]
  cases r.EnSubscriptionFirefox_OutboundPushMessages <;> rfl

/-- The descriptor of the last branch, for a plan that is neither lite nor standard. -/
theorem other_costComponent (r : EnSubscriptionFirefox) (h1 : r.Plan ≠ "lite")
    (h2 : r.Plan ≠ "standard") :
    EnSubscriptionFirefoxOutboundPushMessagesCostComponent r = Except.ok
      { Name := "Plan " ++ r.Plan ++ " not found"
        UnitMultiplier := NewFromInt 1
        MonthlyQuantity := some (NewFromInt 1)
        ProductFilter := some
          { VendorName := some "ibm", Region := some r.Region,
            Service := some "event-notifications",
            AttributeFilters := [{ Key := "planName", Value := some r.Plan }] }
        customPrice := some (NewFromInt 0) } := by
  unfold EnSubscriptionFirefoxOutboundPushMessagesCostComponent
  simp only [h1, h2, if_false, CostComponent.SetCustomPrice, strPtr, decimalPtr]

/-- A resource of the lite plan with a nil usage field has no descriptor. -/
theorem lite_nil_costComponent (r : EnSubscriptionFirefox) (hplan : r.Plan = "lite")
    (husage : r.EnSubscriptionFirefox_OutboundPushMessages = none) :
    EnSubscriptionFirefoxOutboundPushMessagesCostComponent r =
      Except.error Panic.nilDereference := by
  unfold EnSubscriptionFirefoxOutboundPushMessagesCostComponent
  simp only [hplan, husage, if_true]

/-- The resource built from the descriptor of the cost component function. -/
theorem buildResource_ok (r : EnSubscriptionFirefox) (c : CostComponent)
    (h : EnSubscriptionFirefoxOutboundPushMessagesCostComponent r = Except.ok c) :
    BuildResource r = Except.ok
      { Name := r.Address, UsageSchema := EnSubscriptionFirefoxUsageSchema,
        CostComponents := [c] } := by
  unfold BuildResource
  rw [h]

/-- Every descriptor returned comes from one of the three branches. -/
theorem costComponent_cases (r : EnSubscriptionFirefox) (c : CostComponent)
    (h : EnSubscriptionFirefoxOutboundPushMessagesCostComponent r = Except.ok c) :
    (r.Plan = "lite" ∧ ∃ u, r.EnSubscriptionFirefox_OutboundPushMessages = some u ∧
      c = { Name := "Outbound Firefox Push Messages (Lite plan) (Max. 1,000 per destination)"
            Unit := "Messages"
            UnitMultiplier := NewFromInt 1
            MonthlyQuantity := some (NewFromFloat (math.Min (float64 u) (float64 1000)))
            ProductFilter := some
              { VendorName := some "ibm", Region := some r.Region,
                Service := some "event-notifications" }
            customPrice := some (NewFromInt 0) }) ∨
    (r.Plan = "standard" ∧
      c = { Name := "Outbound Firefox Push Messages (Standard plan)"
            Unit := "Messages"
            UnitMultiplier := NewFromInt 1
            MonthlyQuantity := r.EnSubscriptionFirefox_OutboundPushMessages.map NewFromInt
            ProductFilter := some
              { VendorName := some "ibm", Region := some r.Region,
                Service := some "event-notifications",
                AttributeFilters := [{ Key := "planName", Value := some r.Plan }] }
            PriceFilter := some { Unit := some "OUTBOUND_DIGITAL_MESSAGES_PUSH" } }) ∨
    (r.Plan ≠ "lite" ∧ r.Plan ≠ "standard" ∧
      c = { Name := "Plan " ++ r.Plan ++ " not found"
            UnitMultiplier := NewFromInt 1
            MonthlyQuantity := some (NewFromInt 1)
            ProductFilter := some
              { VendorName := some "ibm", Region := some r.Region,
                Service := some "event-notifications",
                AttributeFilters := [{ Key := "planName", Value := some r.Plan }] }
            customPrice := some (NewFromInt 0) }) := by
  by_cases hl : r.Plan = "lite"
  · cases hu : r.EnSubscriptionFirefox_OutboundPushMessages with
    | none =>
      rw [lite_nil_costComponent r hl hu] at h
      cases h
    | some u =>
      rw [lite_costComponent r u hl hu] at h
      exact Or.inl ⟨hl, u, rfl, (Except.ok.inj h).symm⟩
  · by_cases hs : r.Plan = "standard"
    · rw [standard_costComponent r hs] at h
      exact Or.inr (Or.inl ⟨hs, (Except.ok.inj h).symm⟩)
    · rw [other_costComponent r hl hs] at h
      exact Or.inr (Or.inr ⟨hl, hs, (Except.ok.inj h).symm⟩)

/-! ## Claims -/

/-- C1: for a resource of plan "lite" whose usage field holds an int64 `u` with `0 ≤ u`, the
cost component function returns a descriptor whose MonthlyQuantity is present and is a decimal
equal to `min(u, 1000)`, although it is computed through `float64` and `math.Min`; for
`u > 1000` it is equal to 1000. -/
theorem C1_lite_quantity_is_capped_usage (r : EnSubscriptionFirefox) (u : Int)
    (hplan : r.Plan = "lite")
    (husage : r.EnSubscriptionFirefox_OutboundPushMessages = some u)
    (h0 : 0 ≤ u) (_hmax : u < 2 ^ 63) :
    ∃ c d, EnSubscriptionFirefoxOutboundPushMessagesCostComponent r = Except.ok c ∧
      c.MonthlyQuantity = some d ∧
      d.Equal (NewFromInt (min u 1000)) = true ∧
      (1000 < u → d.Equal (NewFromInt 1000) = true) := by
  have hq := math.Min_float64_cap u h0
  have hb : (min u 1000).natAbs < 2 ^ 53 := by
    have : min u 1000 ≤ 1000 := min_le_right _ _
    have : 0 ≤ min u 1000 := le_min h0 (by norm_num)
    omega
  refine ⟨_, _, lite_costComponent r u hplan husage, rfl, ?_, ?_⟩
  · rw [hq]; exact NewFromFloat_Equal_NewFromInt _ hb
  · intro hgt
    rw [hq, min_eq_right (le_of_lt hgt)]
    decide

/-- C1 at usage 2500: the quantity is equal to 1000. -/
theorem C1_lite_quantity_is_capped_usage_witness :
    ∃ c d, EnSubscriptionFirefoxOutboundPushMessagesCostComponent
        ⟨"ibm_en_subscription_firefox.s", "us-south", "s", "lite", some 2500⟩ = Except.ok c ∧
      c.MonthlyQuantity = some d ∧
      d.Equal (NewFromInt (min 2500 1000)) = true ∧
      ((1000 : Int) < 2500 → d.Equal (NewFromInt 1000) = true) :=
  C1_lite_quantity_is_capped_usage
    ⟨"ibm_en_subscription_firefox.s", "us-south", "s", "lite", some 2500⟩ 2500 rfl rfl
    (by decide) (by decide)

/-- C2: for a resource of plan "standard", a usage field holding `u` (any int64, zero and
negative values included) gives a MonthlyQuantity that is present and is the decimal of `u`
exactly; a nil usage field gives a nil MonthlyQuantity, which is not the decimal zero. -/
theorem C2_standard_quantity_is_usage (r : EnSubscriptionFirefox)
    (hplan : r.Plan = "standard") :
    ∃ c, EnSubscriptionFirefoxOutboundPushMessagesCostComponent r = Except.ok c ∧
      (∀ u, r.EnSubscriptionFirefox_OutboundPushMessages = some u →
        c.MonthlyQuantity = some (NewFromInt u) ∧ (NewFromInt u).IntPart = u) ∧
      (r.EnSubscriptionFirefox_OutboundPushMessages = none →
        c.MonthlyQuantity = none ∧ c.MonthlyQuantity ≠ some (NewFromInt 0)) := by
  refine ⟨_, standard_costComponent r hplan, ?_, ?_⟩
  · intro u hu
    simp [hu, NewFromInt, Decimal.IntPart]
  · intro hu
    simp [hu]

/-- C2 at usage 500, 2500 and nil: the quantities are 500, 2500 and nil. -/
theorem C2_standard_quantity_is_usage_witness :
    (∃ c, EnSubscriptionFirefoxOutboundPushMessagesCostComponent
        ⟨"a", "us-south", "s", "standard", some 500⟩ = Except.ok c ∧
      c.MonthlyQuantity = some (NewFromInt 500)) ∧
    (∃ c, EnSubscriptionFirefoxOutboundPushMessagesCostComponent
        ⟨"a", "us-south", "s", "standard", some 2500⟩ = Except.ok c ∧
      c.MonthlyQuantity = some (NewFromInt 2500)) ∧
    (∃ c, EnSubscriptionFirefoxOutboundPushMessagesCostComponent
        ⟨"a", "us-south", "s", "standard", none⟩ = Except.ok c ∧
      c.MonthlyQuantity = none) := by
  refine ⟨?_, ?_, ?_⟩
  · obtain ⟨c, hc, hsome, _⟩ :=
      C2_standard_quantity_is_usage ⟨"a", "us-south", "s", "standard", some 500⟩ rfl
    exact ⟨c, hc, (hsome 500 rfl).1⟩
  · obtain ⟨c, hc, hsome, _⟩ :=
      C2_standard_quantity_is_usage ⟨"a", "us-south", "s", "standard", some 2500⟩ rfl
    exact ⟨c, hc, (hsome 2500 rfl).1⟩
  · obtain ⟨c, hc, _, hnone⟩ :=
      C2_standard_quantity_is_usage ⟨"a", "us-south", "s", "standard", none⟩ rfl
    exact ⟨c, hc, (hnone rfl).1⟩

/-- C3: for a plan other than "lite" and "standard", whatever the usage field and the region,
BuildResource yields exactly one descriptor, named "Plan <plan> not found", with
MonthlyQuantity present and equal to 1 and the custom price set to 0; the descriptor is the
same for every value of the usage field. -/
theorem C3_unknown_plan_placeholder (r : EnSubscriptionFirefox) (h1 : r.Plan ≠ "lite")
    (h2 : r.Plan ≠ "standard") :
    ∃ res c, BuildResource r = Except.ok res ∧ res.CostComponents = [c] ∧
      c.Name = "Plan " ++ r.Plan ++ " not found" ∧
      c.MonthlyQuantity = some (NewFromInt 1) ∧
      c.customPrice = some (NewFromInt 0) ∧
      ∀ v : Option Int, ∃ res', BuildResource
          { r with EnSubscriptionFirefox_OutboundPushMessages := v } = Except.ok res' ∧
        res'.CostComponents = [c] := by
  exact ⟨_, _, buildResource_ok r _ (other_costComponent r h1 h2), rfl, rfl, rfl, rfl,
    fun _ => ⟨_, buildResource_ok _ _ (other_costComponent _ h1 h2), rfl⟩⟩

/-- C3 at plan "gold": the name is "Plan gold not found", the quantity 1 and the custom
price 0. -/
theorem C3_unknown_plan_placeholder_witness :
    ∃ res c, BuildResource ⟨"a", "us-south", "s", "gold", some 2500⟩ = Except.ok res ∧
      res.CostComponents = [c] ∧ c.Name = "Plan gold not found" ∧
      c.MonthlyQuantity = some (NewFromInt 1) ∧ c.customPrice = some (NewFromInt 0) := by
  obtain ⟨res, c, hres, hcs, hname, hq, hp, _⟩ :=
    C3_unknown_plan_placeholder ⟨"a", "us-south", "s", "gold", some 2500⟩
      (by decide) (by decide)
  exact ⟨res, c, hres, hcs, by rw [hname]; decide, hq, hp⟩

/-- C4: the claim that the resolver returns a descriptor on every resource fails at plan
"lite" with a nil usage field, where the usage pointer is dereferenced: both functions panic
there. On every other resource both functions return. -/
theorem C4_lite_nil_usage_panics :
    EnSubscriptionFirefoxOutboundPushMessagesCostComponent
        ⟨"ibm_en_subscription_firefox.s", "us-south", "s", "lite", none⟩ =
      Except.error Panic.nilDereference ∧
    BuildResource ⟨"ibm_en_subscription_firefox.s", "us-south", "s", "lite", none⟩ =
      Except.error Panic.nilDereference ∧
    ∀ r : EnSubscriptionFirefox,
      ¬ (r.Plan = "lite" ∧ r.EnSubscriptionFirefox_OutboundPushMessages = none) →
      (∃ c, EnSubscriptionFirefoxOutboundPushMessagesCostComponent r = Except.ok c) ∧
      (∃ res, BuildResource r = Except.ok res) := by
  refine ⟨rfl, rfl, ?_⟩
  intro r hr
  have hc : ∃ c, EnSubscriptionFirefoxOutboundPushMessagesCostComponent r = Except.ok c := by
    by_cases hl : r.Plan = "lite"
    · cases hu : r.EnSubscriptionFirefox_OutboundPushMessages with
      | none => exact absurd ⟨hl, hu⟩ hr
      | some u => exact ⟨_, lite_costComponent r u hl hu⟩
    · by_cases hs : r.Plan = "standard"
      · exact ⟨_, standard_costComponent r hs⟩
      · exact ⟨_, other_costComponent r hl hs⟩
  refine ⟨hc, ?_⟩
  obtain ⟨c, hc⟩ := hc
  exact ⟨_, buildResource_ok r c hc⟩

/-- C5: the claim that plan "lite" with a nil usage field gives a descriptor of quantity 0
fails: no descriptor is returned there, the function panics on the nil dereference. -/
theorem C5_lite_nil_usage_has_no_quantity :
    EnSubscriptionFirefoxOutboundPushMessagesCostComponent
        ⟨"ibm_en_subscription_firefox.t", "eu-de", "t", "lite", none⟩ =
      Except.error Panic.nilDereference ∧
    ¬ ∃ c, EnSubscriptionFirefoxOutboundPushMessagesCostComponent
        ⟨"ibm_en_subscription_firefox.t", "eu-de", "t", "lite", none⟩ = Except.ok c ∧
      c.MonthlyQuantity = some (NewFromInt 0) := by
  refine ⟨rfl, ?_⟩
  rintro ⟨c, hc, _⟩
  rw [lite_nil_costComponent _ rfl rfl] at hc
  cases hc

/-- C6: on every resource for which a descriptor is returned, exactly one of the price filter
and the custom price is set: plan "lite" has custom price 0 and no price filter; plan
"standard" has a price filter of unit "OUTBOUND_DIGITAL_MESSAGES_PUSH" and no custom price;
any other plan has custom price 0 and no price filter. -/
theorem C6_price_filter_xor_custom_price (r : EnSubscriptionFirefox) (c : CostComponent)
    (h : EnSubscriptionFirefoxOutboundPushMessagesCostComponent r = Except.ok c) :
    ((c.PriceFilter ≠ none ∧ c.customPrice = none) ∨
      (c.PriceFilter = none ∧ c.customPrice ≠ none)) ∧
    (r.Plan = "lite" → c.customPrice = some (NewFromInt 0) ∧ c.PriceFilter = none) ∧
    (r.Plan = "standard" →
      c.PriceFilter = some { Unit := some "OUTBOUND_DIGITAL_MESSAGES_PUSH" } ∧
      c.customPrice = none) ∧
    (r.Plan ≠ "lite" → r.Plan ≠ "standard" →
      c.customPrice = some (NewFromInt 0) ∧ c.PriceFilter = none) := by
  have hls : ("lite" : String) ≠ "standard" := by decide
  rcases costComponent_cases r c h with ⟨hl, u, _, hc⟩ | ⟨hs, hc⟩ | ⟨hl, hs, hc⟩
  · subst hc
    refine ⟨Or.inr ⟨rfl, by simp⟩, fun _ => ⟨rfl, rfl⟩, fun hs => ?_, fun hn => absurd hl hn⟩
    exact absurd (hl.symm.trans hs) hls
  · subst hc
    refine ⟨Or.inl ⟨by simp, rfl⟩, fun hl => ?_, fun _ => ⟨rfl, rfl⟩,
      fun _ hn => absurd hs hn⟩
    exact absurd (hl.symm.trans hs) hls
  · subst hc
    exact ⟨Or.inr ⟨rfl, by simp⟩, fun h' => absurd h' hl, fun h' => absurd h' hs,
      fun _ _ => ⟨rfl, rfl⟩⟩

/-- C6 at plan "standard", region "us-south", usage 2500: the price filter has the unit code
of the meter and no custom price is set. -/
theorem C6_price_filter_xor_custom_price_witness :
    ∃ c, EnSubscriptionFirefoxOutboundPushMessagesCostComponent
        ⟨"a", "us-south", "s", "standard", some 2500⟩ = Except.ok c ∧
      c.PriceFilter = some { Unit := some "OUTBOUND_DIGITAL_MESSAGES_PUSH" } ∧
      c.customPrice = none :=
  ⟨_, standard_costComponent ⟨"a", "us-south", "s", "standard", some 2500⟩ rfl,
    (C6_price_filter_xor_custom_price ⟨"a", "us-south", "s", "standard", some 2500⟩ _
      (standard_costComponent ⟨"a", "us-south", "s", "standard", some 2500⟩ rfl)).2.2.1 rfl⟩

/-- C7: on every resource for which a descriptor is returned, the product filter has vendor
"ibm", service "event-notifications" and the region of the resource unmodified; its attribute
filters are empty for plan "lite" and are the single constraint planName = Plan for plan
"standard" and for an unrecognised plan. -/
theorem C7_product_filter (r : EnSubscriptionFirefox) (c : CostComponent)
    (h : EnSubscriptionFirefoxOutboundPushMessagesCostComponent r = Except.ok c) :
    ∃ pf, c.ProductFilter = some pf ∧
      pf.VendorName = some "ibm" ∧ pf.Service = some "event-notifications" ∧
      pf.Region = some r.Region ∧
      (r.Plan = "lite" → pf.AttributeFilters = []) ∧
      (r.Plan ≠ "lite" → pf.AttributeFilters =
        [{ Key := "planName", Value := some r.Plan, ValueRegex := none }]) := by
  have hls : ("lite" : String) ≠ "standard" := by decide
  rcases costComponent_cases r c h with ⟨hl, u, _, hc⟩ | ⟨hs, hc⟩ | ⟨hl, hs, hc⟩
  · subst hc
    exact ⟨_, rfl, rfl, rfl, rfl, fun _ => rfl, fun hn => absurd hl hn⟩
  · subst hc
    exact ⟨_, rfl, rfl, rfl, rfl, fun hl => absurd (hl.symm.trans hs) hls, fun _ => rfl⟩
  · subst hc
    exact ⟨_, rfl, rfl, rfl, rfl, fun h' => absurd h' hl, fun _ => rfl⟩

/-- C7 at plan "lite", region "us-south", usage 2500: region "us-south" and no attribute
filter. -/
theorem C7_product_filter_witness :
    ∃ c pf, EnSubscriptionFirefoxOutboundPushMessagesCostComponent
        ⟨"a", "us-south", "s", "lite", some 2500⟩ = Except.ok c ∧
      c.ProductFilter = some pf ∧ pf.Region = some "us-south" ∧ pf.AttributeFilters = [] := by
  have hc := lite_costComponent ⟨"a", "us-south", "s", "lite", some 2500⟩ 2500 rfl rfl
  obtain ⟨pf, hpf, _, _, hreg, hlite, _⟩ :=
    C7_product_filter ⟨"a", "us-south", "s", "lite", some 2500⟩ _ hc
  exact ⟨_, pf, hc, hpf, hreg, hlite rfl⟩

/-- C8: whenever BuildResource returns, the result is named by the address of the resource,
carries the usage schema, and its cost components are one descriptor per schema entry in the
order of the schema: a list of length 1 whose element is the descriptor of the cost component
function for the single key "event-notifications_OUTBOUND_DIGITAL_MESSAGES_PUSH". -/
theorem C8_build_resource_shape (r : EnSubscriptionFirefox) (res : Resource)
    (h : BuildResource r = Except.ok res) :
    res.Name = r.Address ∧
    res.UsageSchema = EnSubscriptionFirefoxUsageSchema ∧
    res.UsageSchema.map UsageItem.Key =
      ["event-notifications_OUTBOUND_DIGITAL_MESSAGES_PUSH"] ∧
    res.CostComponents.length = res.UsageSchema.length ∧
    res.CostComponents.length = 1 ∧
    ∃ c, EnSubscriptionFirefoxOutboundPushMessagesCostComponent r = Except.ok c ∧
      res.CostComponents = [c] := by
  unfold BuildResource at h
  cases hc : EnSubscriptionFirefoxOutboundPushMessagesCostComponent r with
  | error p =>
    rw [hc] at h
    cases h
  | ok c =>
    rw [hc] at h
    have hres := (Except.ok.inj h).symm
    subst hres
    exact ⟨rfl, rfl, rfl, rfl, rfl, c, rfl, rfl⟩

/-- C8 at plan "standard" with a nil usage field: one descriptor, the resource named by the
address. -/
theorem C8_build_resource_shape_witness :
    ∃ res, BuildResource ⟨"ibm_en_subscription_firefox.s", "us-south", "s", "standard", none⟩ =
        Except.ok res ∧
      res.Name = "ibm_en_subscription_firefox.s" ∧ res.CostComponents.length = 1 := by
  have hb := buildResource_ok
    ⟨"ibm_en_subscription_firefox.s", "us-south", "s", "standard", none⟩ _
    (standard_costComponent _ rfl)
  have hs := C8_build_resource_shape _ _ hb
  exact ⟨_, hb, hs.1, hs.2.2.2.2.1⟩

/-- C10: capping is idempotent: for a usage `u` with `0 ≤ u`, the quantity that the lite
branch returns denotes the integer `min(u, 1000)`, and a lite resource whose usage is that
quantity is given the same quantity again. -/
theorem C10_lite_cap_idempotent (r : EnSubscriptionFirefox) (u : Int)
    (hplan : r.Plan = "lite")
    (husage : r.EnSubscriptionFirefox_OutboundPushMessages = some u)
    (h0 : 0 ≤ u) (_hmax : u < 2 ^ 63) :
    ∃ c d, EnSubscriptionFirefoxOutboundPushMessagesCostComponent r = Except.ok c ∧
      c.MonthlyQuantity = some d ∧ d.IntPart = min u 1000 ∧
      min (min u 1000) 1000 = min u 1000 ∧
      ∃ c', EnSubscriptionFirefoxOutboundPushMessagesCostComponent
          { r with EnSubscriptionFirefox_OutboundPushMessages := some d.IntPart } =
          Except.ok c' ∧
        c'.MonthlyQuantity = some d := by
  have hq := math.Min_float64_cap u h0
  have hm0 : 0 ≤ min u 1000 := le_min h0 (by norm_num)
  have hm1 : min u 1000 ≤ 1000 := min_le_right _ _
  have hb : (min u 1000).natAbs < 2 ^ 53 := by omega
  have hint : (NewFromFloat (math.Min (float64 u) (float64 1000))).IntPart = min u 1000 := by
    rw [hq]; exact NewFromFloat_IntPart _ hb
  have hidem : min (min u 1000) 1000 = min u 1000 := min_eq_left hm1
  refine ⟨_, _, lite_costComponent r u hplan husage, rfl, hint, hidem, ?_⟩
  refine ⟨_, lite_costComponent _ _ hplan rfl, ?_⟩
  show some (NewFromFloat (math.Min (float64 (NewFromFloat
    (math.Min (float64 u) (float64 1000))).IntPart) (float64 1000))) = _
  rw [hint, math.Min_float64_cap _ hm0, hidem, hq]

/-- C10 at usage 2500: the quantity denotes 1000 and is returned again for usage 1000. -/
theorem C10_lite_cap_idempotent_witness :
    ∃ c d, EnSubscriptionFirefoxOutboundPushMessagesCostComponent
        ⟨"a", "us-south", "s", "lite", some 2500⟩ = Except.ok c ∧
      c.MonthlyQuantity = some d ∧ d.IntPart = 1000 ∧
      ∃ c', EnSubscriptionFirefoxOutboundPushMessagesCostComponent
          ⟨"a", "us-south", "s", "lite", some d.IntPart⟩ = Except.ok c' ∧
        c'.MonthlyQuantity = some d := by
  obtain ⟨c, d, hc, hd, hint, _, c', hc', hd'⟩ :=
    C10_lite_cap_idempotent ⟨"a", "us-south", "s", "lite", some 2500⟩ 2500 rfl rfl
      (by decide) (by decide)
  exact ⟨c, d, hc, hd, hint, c', hc', hd'⟩

end ibm

/-! ## Conversion lemmas at the last exact magnitude -/

theorem float64_exact_le (n : Int) (h : n.natAbs ≤ 2 ^ 53) : float64 n = n := by
  by_cases hlt : n.natAbs < 2 ^ 53
  · exact float64_exact n hlt
  · have habs : n.natAbs = 2 ^ 53 := le_antisymm h (not_lt.mp hlt)
    have hlog : Nat.log2 (2 ^ 53) = 53 := Nat.log2_two_pow
    have hn : n = 2 ^ 53 ∨ n = -(2 ^ 53) := by omega
    unfold float64
    simp only [habs, hlog, lt_irrefl, if_false]
    rcases hn with hn | hn <;> subst hn <;> decide

theorem float64_large_succ (x : Nat) (h : 2 ^ 53 + 2 ≤ x) :
    (2 ^ 53 + 2 : Int) ≤ float64 (x : Int) := by
  have hpos : 0 < x := lt_of_lt_of_le (by positivity) h
  have hne : x ≠ 0 := Nat.pos_iff_ne_zero.mp hpos
  have h53 : 2 ^ 53 ≤ x := le_trans (Nat.le_add_right _ _) h
  have hlog : 53 ≤ Nat.log2 x := (Nat.le_log2 hne).mpr h53
  have hle : 2 ^ Nat.log2 x ≤ x := Nat.log2_self_le hne
  unfold float64
  simp only [Int.natAbs_ofNat, not_lt.mpr h53, if_false]
  have hs : Int.sign (x : Int) = 1 := Int.sign_eq_one_of_pos (by exact_mod_cast hpos)
  rw [hs, one_mul]
  set e := Nat.log2 x - 52 with he
  have hq' : x / 2 ^ e ≤
      (if 2 ^ (e - 1) < x % 2 ^ e ∨ (x % 2 ^ e = 2 ^ (e - 1) ∧ x / 2 ^ e % 2 = 1)
        then x / 2 ^ e + 1 else x / 2 ^ e) := by
    split <;> omega
  have hmain : 2 ^ 53 + 2 ≤ x / 2 ^ e * 2 ^ e := by
    by_cases he1 : e = 1
    · rw [he1, pow_one]
      omega
    · have he2 : 2 ≤ e := by omega
      have hq : 2 ^ 52 ≤ x / 2 ^ e := by
        rw [Nat.le_div_iff_mul_le (by positivity), ← pow_add]
        have : 52 + e = Nat.log2 x := by omega
        rw [this]; exact hle
      have hp : 2 ^ 2 ≤ 2 ^ e := Nat.pow_le_pow_right (by norm_num) he2
      calc 2 ^ 53 + 2 ≤ 2 ^ 52 * 2 ^ 2 := by norm_num
        _ ≤ x / 2 ^ e * 2 ^ e := Nat.mul_le_mul hq hp
  have : 2 ^ 53 + 2 ≤
      (if 2 ^ (e - 1) < x % 2 ^ e ∨ (x % 2 ^ e = 2 ^ (e - 1) ∧ x / 2 ^ e % 2 = 1)
        then x / 2 ^ e + 1 else x / 2 ^ e) * 2 ^ e :=
    le_trans hmain (Nat.mul_le_mul_right _ hq')
  exact_mod_cast this

theorem float64_neg_nonpos (n : Int) (h : n < 0) : float64 n ≤ 0 := by
  unfold float64
  by_cases hb : n.natAbs < 2 ^ 53
  · simp only [hb, if_true]
    exact le_of_lt h
  · simp only [hb, if_false]
    rw [Int.sign_eq_neg_one_of_neg h, neg_one_mul]
    exact Int.neg_nonpos_of_nonneg (Int.ofNat_nonneg _)

namespace decimal

theorem roundShortest_exact_le (a : Nat) (h : a ≤ 2 ^ 53) (e : Nat) :
    (roundShortest a e).1 * 10 ^ (roundShortest a e).2 = a := by
  by_cases hlt : a < 2 ^ 53
  · exact roundShortest_exact a hlt e
  · have ha : a = 2 ^ 53 := le_antisymm h (not_lt.mp hlt)
    induction e with
    | zero => simp [roundShortest]
    | succ e ih =>
      have hp : 0 < 10 ^ (e + 1) := by positivity
      have hlo : a / 10 ^ (e + 1) * 10 ^ (e + 1) ≤ a := Nat.div_mul_le_self a _
      have hhi : a < (a / 10 ^ (e + 1) + 1) * 10 ^ (e + 1) := by
        have := Nat.lt_div_mul_add (a := a) hp
        rw [add_mul, one_mul]; exact this
      have heven : 2 ∣ (a / 10 ^ (e + 1) + 1) * 10 ^ (e + 1) :=
        Dvd.dvd.mul_left (Dvd.dvd.trans (by norm_num : 2 ∣ 10) (dvd_pow_self 10 (by omega))) _
      have hup : ¬ float64 (((a / 10 ^ (e + 1) + 1) * 10 ^ (e + 1) : Nat) : Int) = (a : Int) := by
        intro hc
        have hge : 2 ^ 53 + 2 ≤ (a / 10 ^ (e + 1) + 1) * 10 ^ (e + 1) := by omega
        have := float64_large_succ _ hge
        rw [hc] at this
        have : 2 ^ 53 + 2 ≤ a := by exact_mod_cast this
        omega
      have hdown : float64 ((a / 10 ^ (e + 1) * 10 ^ (e + 1) : Nat) : Int) = (a : Int) →
          a / 10 ^ (e + 1) * 10 ^ (e + 1) = a := by
        intro hc
        rw [float64_exact_le _ (by rw [Int.natAbs_ofNat]; exact le_trans hlo h)] at hc
        exact_mod_cast hc
      unfold roundShortest
      simp only [hup, and_false, if_false]
      split
      · next hd => exact hdown hd
      · exact ih

/-- The decimal of a float of magnitude at most `2^53` denotes the float exactly, with a
non-negative exponent. -/
theorem NewFromFloat_denotes (f : Int) (h : f.natAbs ≤ 2 ^ 53) :
    (NewFromFloat f).value * 10 ^ (NewFromFloat f).exp.toNat = f ∧ 0 ≤ (NewFromFloat f).exp := by
  unfold NewFromFloat
  by_cases h0 : f = 0
  · subst h0; decide
  · simp only [h0, if_false]
    have hs := roundShortest_exact_le f.natAbs h (numDigits f.natAbs)
    set s := roundShortest f.natAbs (numDigits f.natAbs) with hsdef
    have hs' : (s.1 : Int) * 10 ^ s.2 = (f.natAbs : Int) := by exact_mod_cast hs
    refine ⟨?_, by positivity⟩
    simp only [Int.toNat_ofNat]
    by_cases hneg : f < 0
    · simp only [hneg, if_true]
      rw [neg_mul, hs']; omega
    · simp only [hneg, if_false]
      rw [hs']; omega

/-- The decimal of a negative float has a non-positive coefficient and a non-negative
exponent, whatever the magnitude. -/
theorem NewFromFloat_neg (f : Int) (h : f < 0) :
    (NewFromFloat f).value ≤ 0 ∧ 0 ≤ (NewFromFloat f).exp := by
  unfold NewFromFloat
  have h0 : ¬ f = 0 := by omega
  simp only [h0, if_false, h, if_true]
  exact ⟨Int.neg_nonpos_of_nonneg (Int.ofNat_nonneg _), by positivity⟩

/-- Comparison with an integer, for a decimal of non-negative exponent. -/
theorem Cmp_NewFromInt (d : Decimal) (n : Int) (h : 0 ≤ d.exp) :
    d.Cmp (NewFromInt n) =
      if d.value * 10 ^ d.exp.toNat < n then -1
      else if d.value * 10 ^ d.exp.toNat = n then 0 else 1 := by
  simp only [Decimal.Cmp, NewFromInt]
  have hmin : min d.exp 0 = 0 := min_eq_right h
  simp only [hmin, sub_zero, Int.toNat_zero, pow_zero, mul_one]

end decimal

namespace ibm

open decimal schema

/-- The name of the last branch starts with the letter of "Plan". -/
theorem notFound_name_head (p : String) :
    ("Plan " ++ p ++ " not found").data.head? = some 'P' := by
  simp [String.data_append]

/-- What `PopulateUsage` does to the struct: the usage field takes the entry of its key when
there is one, and nothing else changes. -/
theorem populateUsage_eq (r : EnSubscriptionFirefox) (d : UsageData) :
    PopulateUsage r (some d) =
      match d.Attributes "event-notifications_OUTBOUND_DIGITAL_MESSAGES_PUSH" with
      | some v => { r with EnSubscriptionFirefox_OutboundPushMessages := some v }
      | none => r := by
  simp only [PopulateUsage, resources.PopulateArgsWithUsage, usageFields, List.foldl]

/-- C11: for plan "lite" with a usage value the descriptor is named exactly "Outbound Firefox
Push Messages (Lite plan) (Max. 1,000 per destination)", which contains "Lite plan" and
"Max. 1,000"; for plan "standard" it is named exactly "Outbound Firefox Push Messages
(Standard plan)"; two resources of the same of these plans get the same name, whatever their
usage value and region. -/
theorem C11_descriptor_names (r : EnSubscriptionFirefox) :
    (r.Plan = "lite" → ∀ u, r.EnSubscriptionFirefox_OutboundPushMessages = some u →
      ∃ c, EnSubscriptionFirefoxOutboundPushMessagesCostComponent r = Except.ok c ∧
        c.Name = "Outbound Firefox Push Messages (Lite plan) (Max. 1,000 per destination)" ∧
        (∃ a b, c.Name = a ++ "Lite plan" ++ b) ∧
        (∃ a b, c.Name = a ++ "Max. 1,000" ++ b)) ∧
    (r.Plan = "standard" →
      ∃ c, EnSubscriptionFirefoxOutboundPushMessagesCostComponent r = Except.ok c ∧
        c.Name = "Outbound Firefox Push Messages (Standard plan)") ∧
    (r.Plan = "lite" ∨ r.Plan = "standard" →
      ∀ (r' : EnSubscriptionFirefox) (c c' : CostComponent), r'.Plan = r.Plan →
        EnSubscriptionFirefoxOutboundPushMessagesCostComponent r = Except.ok c →
        EnSubscriptionFirefoxOutboundPushMessagesCostComponent r' = Except.ok c' →
        c'.Name = c.Name) := by
  refine ⟨?_, ?_, ?_⟩
  · intro hl u hu
    refine ⟨_, lite_costComponent r u hl hu, rfl, ?_, ?_⟩
    · exact ⟨"Outbound Firefox Push Messages (", ") (Max. 1,000 per destination)",
        show "Outbound Firefox Push Messages (Lite plan) (Max. 1,000 per destination)" =
          "Outbound Firefox Push Messages (" ++ "Lite plan" ++
            ") (Max. 1,000 per destination)" by decide⟩
    · exact ⟨"Outbound Firefox Push Messages (Lite plan) (", " per destination)",
        show "Outbound Firefox Push Messages (Lite plan) (Max. 1,000 per destination)" =
          "Outbound Firefox Push Messages (Lite plan) (" ++ "Max. 1,000" ++
            " per destination)" by decide⟩
  · intro hs
    exact ⟨_, standard_costComponent r hs, rfl⟩
  · intro hp r' c c' hr' hc hc'
    have hls : ("lite" : String) ≠ "standard" := by decide
    rcases hp with hl | hs
    · rcases costComponent_cases r c hc with ⟨_, _, _, e⟩ | ⟨hs, _⟩ | ⟨hn, _⟩
      · rcases costComponent_cases r' c' hc' with ⟨_, _, _, e'⟩ | ⟨hs', _⟩ | ⟨hn', _⟩
        · rw [e, e']
        · exact absurd ((hr'.trans hl).symm.trans hs') hls
        · exact absurd (hr'.trans hl) hn'
      · exact absurd (hl.symm.trans hs) hls
      · exact absurd hl hn
    · rcases costComponent_cases r c hc with ⟨hl, _⟩ | ⟨_, e⟩ | ⟨_, hn, _⟩
      · exact absurd (hl.symm.trans hs) hls
      · rcases costComponent_cases r' c' hc' with ⟨hl', _⟩ | ⟨_, e'⟩ | ⟨_, hn', _⟩
        · exact absurd (hl'.symm.trans (hr'.trans hs)) hls
        · rw [e, e']
        · exact absurd (hr'.trans hs) hn'
      · exact absurd hs hn

/-- C11 at plan "lite", region "us-south", usage 2500: the name contains "Lite plan" and
"Max. 1,000". -/
theorem C11_descriptor_names_witness :
    ∃ c, EnSubscriptionFirefoxOutboundPushMessagesCostComponent
        ⟨"a", "us-south", "s", "lite", some 2500⟩ = Except.ok c ∧
      c.Name = "Outbound Firefox Push Messages (Lite plan) (Max. 1,000 per destination)" ∧
      (∃ a b, c.Name = a ++ "Lite plan" ++ b) ∧ (∃ a b, c.Name = a ++ "Max. 1,000" ++ b) :=
  (C11_descriptor_names ⟨"a", "us-south", "s", "lite", some 2500⟩).1 rfl 2500 rfl

/-- C12: PopulateUsage binds by key presence: an entry `v` of the usage data under the key
"event-notifications_OUTBOUND_DIGITAL_MESSAGES_PUSH" is stored in the usage field; without
an entry under that key the field is left as it is, so an unset field stays unset (nil, not
0); the entries under any other key have no effect on the resource. -/
theorem C12_populate_usage_binds_by_key (r : EnSubscriptionFirefox) (d : UsageData) :
    (∀ v, d.Attributes "event-notifications_OUTBOUND_DIGITAL_MESSAGES_PUSH" = some v →
      (PopulateUsage r (some d)).EnSubscriptionFirefox_OutboundPushMessages = some v) ∧
    (d.Attributes "event-notifications_OUTBOUND_DIGITAL_MESSAGES_PUSH" = none →
      (PopulateUsage r (some d)).EnSubscriptionFirefox_OutboundPushMessages =
        r.EnSubscriptionFirefox_OutboundPushMessages) ∧
    (d.Attributes "event-notifications_OUTBOUND_DIGITAL_MESSAGES_PUSH" = none →
      r.EnSubscriptionFirefox_OutboundPushMessages = none →
      (PopulateUsage r (some d)).EnSubscriptionFirefox_OutboundPushMessages = none ∧
      (PopulateUsage r (some d)).EnSubscriptionFirefox_OutboundPushMessages ≠ some 0) ∧
    (∀ d' : UsageData,
      d'.Attributes "event-notifications_OUTBOUND_DIGITAL_MESSAGES_PUSH" =
        d.Attributes "event-notifications_OUTBOUND_DIGITAL_MESSAGES_PUSH" →
      PopulateUsage r (some d') = PopulateUsage r (some d)) := by
  refine ⟨?_, ?_, ?_, ?_⟩
  · intro v hv
    rw [populateUsage_eq, hv]
  · intro hn
    rw [populateUsage_eq, hn]
  · intro hn hr
    rw [populateUsage_eq, hn, hr]
    exact ⟨rfl, by simp⟩
  · intro d' hd'
    rw [populateUsage_eq, populateUsage_eq, hd']

/-- C12 at usage data with the entry 500 under the key and an entry under another key, and
at usage data with an entry under another key only. -/
theorem C12_populate_usage_binds_by_key_witness :
    (PopulateUsage ⟨"a", "us-south", "s", "standard", none⟩
      (some ⟨fun k => if k = "event-notifications_OUTBOUND_DIGITAL_MESSAGES_PUSH" then some 500
        else if k = "other" then some 7
        else none⟩)).EnSubscriptionFirefox_OutboundPushMessages = some 500 ∧
    (PopulateUsage ⟨"a", "us-south", "s", "standard", none⟩
      (some ⟨fun k => if k = "other" then some 7
        else none⟩)).EnSubscriptionFirefox_OutboundPushMessages = none :=
  ⟨(C12_populate_usage_binds_by_key ⟨"a", "us-south", "s", "standard", none⟩
      ⟨fun k => if k = "event-notifications_OUTBOUND_DIGITAL_MESSAGES_PUSH" then some 500
        else if k = "other" then some 7 else none⟩).1 500 (by decide),
    ((C12_populate_usage_binds_by_key ⟨"a", "us-south", "s", "standard", none⟩
      ⟨fun k => if k = "other" then some 7 else none⟩).2.2.1 (by decide) rfl).1⟩

/-- C13: PopulateUsage changes the usage field only: address, region, name and plan after the
call are those before it, and the resulting usage field is the same whatever the plan and the
region of the resource. -/
theorem C13_populate_usage_frame (r : EnSubscriptionFirefox) (u : Option UsageData) :
    (PopulateUsage r u).Address = r.Address ∧ (PopulateUsage r u).Region = r.Region ∧
    (PopulateUsage r u).Name = r.Name ∧ (PopulateUsage r u).Plan = r.Plan ∧
    ∀ plan region : String,
      (PopulateUsage { r with Plan := plan, Region := region }
        u).EnSubscriptionFirefox_OutboundPushMessages =
      (PopulateUsage r u).EnSubscriptionFirefox_OutboundPushMessages := by
  cases u with
  | none => exact ⟨rfl, rfl, rfl, rfl, fun _ _ => rfl⟩
  | some d =>
    simp only [populateUsage_eq]
    cases d.Attributes "event-notifications_OUTBOUND_DIGITAL_MESSAGES_PUSH" <;>
      exact ⟨rfl, rfl, rfl, rfl, fun _ _ => rfl⟩

/-- C13 at a resource of plan "lite" in "us-south" and usage data with the entry 2500. -/
theorem C13_populate_usage_frame_witness :
    (PopulateUsage ⟨"a", "us-south", "s", "lite", none⟩
      (some ⟨fun _ => some 2500⟩)).Plan = "lite" ∧
    (PopulateUsage ⟨"a", "us-south", "s", "lite", none⟩
      (some ⟨fun _ => some 2500⟩)).Region = "us-south" :=
  ⟨(C13_populate_usage_frame ⟨"a", "us-south", "s", "lite", none⟩
      (some ⟨fun _ => some 2500⟩)).2.2.2.1,
    (C13_populate_usage_frame ⟨"a", "us-south", "s", "lite", none⟩
      (some ⟨fun _ => some 2500⟩)).2.1⟩

end ibm

namespace decimal

/-- The decimal of a float that is not positive has a non-positive coefficient and a
non-negative exponent. -/
theorem NewFromFloat_nonpos (f : Int) (h : f ≤ 0) :
    (NewFromFloat f).value ≤ 0 ∧ 0 ≤ (NewFromFloat f).exp := by
  by_cases h0 : f = 0
  · subst h0; decide
  · exact NewFromFloat_neg f (by omega)

end decimal

namespace ibm

open decimal schema

/-- The name of a returned descriptor identifies the branch that built it. -/
theorem costComponent_name (r : EnSubscriptionFirefox) (c : CostComponent)
    (h : EnSubscriptionFirefoxOutboundPushMessagesCostComponent r = Except.ok c) :
    (r.Plan = "lite" ∧
      c.Name = "Outbound Firefox Push Messages (Lite plan) (Max. 1,000 per destination)") ∨
    (r.Plan = "standard" ∧ c.Name = "Outbound Firefox Push Messages (Standard plan)") ∨
    (r.Plan ≠ "lite" ∧ r.Plan ≠ "standard" ∧ c.Name = "Plan " ++ r.Plan ++ " not found") := by
  rcases costComponent_cases r c h with ⟨hl, _, _, e⟩ | ⟨hs, e⟩ | ⟨hl, hs, e⟩
  · exact Or.inl ⟨hl, by rw [e]⟩
  · exact Or.inr (Or.inl ⟨hs, by rw [e]⟩)
  · exact Or.inr (Or.inr ⟨hl, hs, by rw [e]⟩)

/-- The name of the last branch is neither of the two names of the known plans. -/
theorem notFound_name_ne (p : String) :
    "Plan " ++ p ++ " not found" ≠
        "Outbound Firefox Push Messages (Lite plan) (Max. 1,000 per destination)" ∧
      "Plan " ++ p ++ " not found" ≠ "Outbound Firefox Push Messages (Standard plan)" := by
  have hh := notFound_name_head p
  constructor
  · intro h
    rw [h] at hh
    revert hh
    decide
  · intro h
    rw [h] at hh
    revert hh
    decide

/-- C14: plan dispatch is by exact, case-sensitive string equality and the three branches
partition the inputs: the lite branch (its descriptor, or its panic on a nil usage field) is
taken iff Plan is "lite", the standard branch iff Plan is "standard", and the not-found branch
for every other string, among them "Lite", "STANDARD", "lite " and the empty string. -/
theorem C14_plan_dispatch_exact (r : EnSubscriptionFirefox) :
    (r.Plan = "lite" ↔
      (EnSubscriptionFirefoxOutboundPushMessagesCostComponent r =
          Except.error Panic.nilDereference ∨
        ∃ c, EnSubscriptionFirefoxOutboundPushMessagesCostComponent r = Except.ok c ∧
          c.Name =
            "Outbound Firefox Push Messages (Lite plan) (Max. 1,000 per destination)")) ∧
    (r.Plan = "standard" ↔
      ∃ c, EnSubscriptionFirefoxOutboundPushMessagesCostComponent r = Except.ok c ∧
        c.Name = "Outbound Firefox Push Messages (Standard plan)") ∧
    ((r.Plan ≠ "lite" ∧ r.Plan ≠ "standard") ↔
      ∃ c, EnSubscriptionFirefoxOutboundPushMessagesCostComponent r = Except.ok c ∧
        c.Name = "Plan " ++ r.Plan ++ " not found") ∧
    (∀ p ∈ ["Lite", "STANDARD", "lite ", ""], ∀ (a rg n : String) (us : Option Int),
      EnSubscriptionFirefoxOutboundPushMessagesCostComponent ⟨a, rg, n, p, us⟩ = Except.ok
        { Name := "Plan " ++ p ++ " not found"
          UnitMultiplier := NewFromInt 1
          MonthlyQuantity := some (NewFromInt 1)
          ProductFilter := some
            { VendorName := some "ibm", Region := some rg,
              Service := some "event-notifications",
              AttributeFilters := [{ Key := "planName", Value := some p }] }
          customPrice := some (NewFromInt 0) }) := by
  have hls : ("Outbound Firefox Push Messages (Lite plan) (Max. 1,000 per destination)" :
      String) ≠ "Outbound Firefox Push Messages (Standard plan)" := by decide
  have hnf := notFound_name_ne r.Plan
  refine ⟨⟨?_, ?_⟩, ⟨?_, ?_⟩, ⟨?_, ?_⟩, ?_⟩
  · intro hl
    cases hu : r.EnSubscriptionFirefox_OutboundPushMessages with
    | none => exact Or.inl (lite_nil_costComponent r hl hu)
    | some u => exact Or.inr ⟨_, lite_costComponent r u hl hu, rfl⟩
  · rintro (he | ⟨c, hc, hname⟩)
    · by_contra hl
      by_cases hs : r.Plan = "standard"
      · rw [standard_costComponent r hs] at he
        cases he
      · rw [other_costComponent r hl hs] at he
        cases he
    · rcases costComponent_name r c hc with ⟨hl, _⟩ | ⟨_, e⟩ | ⟨_, _, e⟩
      · exact hl
      · exact absurd (hname.symm.trans e) hls
      · exact absurd (e.symm.trans hname) hnf.1
  · intro hs
    exact ⟨_, standard_costComponent r hs, rfl⟩
  · rintro ⟨c, hc, hname⟩
    rcases costComponent_name r c hc with ⟨_, e⟩ | ⟨hs, _⟩ | ⟨_, _, e⟩
    · exact absurd (e.symm.trans hname) hls
    · exact hs
    · exact absurd (e.symm.trans hname) hnf.2
  · rintro ⟨hl, hs⟩
    exact ⟨_, other_costComponent r hl hs, rfl⟩
  · rintro ⟨c, hc, hname⟩
    rcases costComponent_name r c hc with ⟨_, e⟩ | ⟨_, e⟩ | ⟨hl, hs, _⟩
    · exact absurd (hname.symm.trans e) hnf.1
    · exact absurd (hname.symm.trans e) hnf.2
    · exact ⟨hl, hs⟩
  · intro p hp a rg n us
    have hne : p ≠ "lite" ∧ p ≠ "standard" := by
      simp only [List.mem_cons, List.mem_singleton, List.not_mem_nil, or_false] at hp
      rcases hp with rfl | rfl | rfl | rfl <;> decide
    exact other_costComponent ⟨a, rg, n, p, us⟩ hne.1 hne.2

/-- C14 at plan "Lite": the name is "Plan Lite not found", the quantity 1 and the custom
price 0. -/
theorem C14_plan_dispatch_exact_witness :
    ∃ c, EnSubscriptionFirefoxOutboundPushMessagesCostComponent
        ⟨"a", "us-south", "s", "Lite", some 2500⟩ = Except.ok c ∧
      c.Name = "Plan Lite not found" ∧ c.MonthlyQuantity = some (NewFromInt 1) ∧
      c.customPrice = some (NewFromInt 0) :=
  ⟨_, (C14_plan_dispatch_exact ⟨"a", "us-south", "s", "Lite", some 2500⟩).2.2.2 "Lite"
      (by decide) "a" "us-south" "s" (some 2500), by decide, rfl, rfl⟩

end ibm

namespace ibm

open decimal schema

/-- C15: every returned descriptor has unit multiplier 1; its unit label is "Messages" for
plan "lite" and for plan "standard", and is the empty string for an unrecognised plan. -/
theorem C15_unit_and_multiplier (r : EnSubscriptionFirefox) (c : CostComponent)
    (h : EnSubscriptionFirefoxOutboundPushMessagesCostComponent r = Except.ok c) :
    c.UnitMultiplier = NewFromInt 1 ∧ c.UnitMultiplier.IntPart = 1 ∧
    (r.Plan = "lite" ∨ r.Plan = "standard" → c.Unit = "Messages") ∧
    (r.Plan ≠ "lite" → r.Plan ≠ "standard" → c.Unit = "") := by
  have hone : (NewFromInt 1).IntPart = 1 := by decide
  rcases costComponent_cases r c h with ⟨hl, _, _, e⟩ | ⟨hs, e⟩ | ⟨hl, hs, e⟩
  · subst e
    exact ⟨rfl, hone, fun _ => rfl, fun hn => absurd hl hn⟩
  · subst e
    exact ⟨rfl, hone, fun _ => rfl, fun _ hn => absurd hs hn⟩
  · subst e
    refine ⟨rfl, hone, fun hp => ?_, fun _ _ => rfl⟩
    rcases hp with hp | hp
    · exact absurd hp hl
    · exact absurd hp hs

/-- C15 at plan "gold": unit multiplier 1 and no unit label. -/
theorem C15_unit_and_multiplier_witness :
    ∃ c, EnSubscriptionFirefoxOutboundPushMessagesCostComponent
        ⟨"a", "us-south", "s", "gold", none⟩ = Except.ok c ∧
      c.UnitMultiplier = NewFromInt 1 ∧ c.Unit = "" := by
  have hc := other_costComponent ⟨"a", "us-south", "s", "gold", none⟩ (by decide) (by decide)
  have hs := C15_unit_and_multiplier ⟨"a", "us-south", "s", "gold", none⟩ _ hc
  exact ⟨_, hc, hs.1, hs.2.2.2 (by decide) (by decide)⟩

/-- C16: the lite quantity is bounded above and not below: for every int64 usage `u` the
quantity compares as at most 1000, and for a negative `u` from `-2^53` the quantity is the
decimal of `u` itself, a negative number that is not raised to 0. -/
theorem C16_lite_quantity_bounds (r : EnSubscriptionFirefox) (u : Int)
    (hplan : r.Plan = "lite")
    (husage : r.EnSubscriptionFirefox_OutboundPushMessages = some u)
    (_hmin : -(2 ^ 63) ≤ u) (_hmax : u < 2 ^ 63) :
    ∃ c d, EnSubscriptionFirefoxOutboundPushMessagesCostComponent r = Except.ok c ∧
      c.MonthlyQuantity = some d ∧
      d.Cmp (NewFromInt 1000) ≤ 0 ∧
      (u < 0 → -(2 ^ 53) ≤ u →
        d.Equal (NewFromInt u) = true ∧ d.IntPart = u ∧ d.Cmp (NewFromInt 0) = -1) := by
  refine ⟨_, _, lite_costComponent r u hplan husage, rfl, ?_, ?_⟩
  · by_cases h0 : 0 ≤ u
    · rw [math.Min_float64_cap u h0]
      have hm0 : 0 ≤ min u 1000 := le_min h0 (by norm_num)
      have hm1 : min u 1000 ≤ 1000 := min_le_right _ _
      obtain ⟨hval, hexp⟩ := NewFromFloat_denotes (min u 1000) (by omega)
      rw [Cmp_NewFromInt _ _ hexp, hval]
      split
      · decide
      · split
        · decide
        · omega
    · have hneg : u < 0 := not_le.mp h0
      have hf := float64_neg_nonpos u hneg
      have hc : float64 1000 = 1000 := float64_exact 1000 (by decide)
      have hmin : math.Min (float64 u) (float64 1000) = float64 u := by
        rw [hc]; unfold math.Min
        rw [if_pos (by omega)]
      rw [hmin]
      obtain ⟨hval, hexp⟩ := NewFromFloat_nonpos (float64 u) hf
      have hpow : (0 : Int) < 10 ^ (NewFromFloat (float64 u)).exp.toNat := by positivity
      have hprod : (NewFromFloat (float64 u)).value *
          10 ^ (NewFromFloat (float64 u)).exp.toNat ≤ 0 :=
        mul_nonpos_of_nonpos_of_nonneg hval (le_of_lt hpow)
      rw [Cmp_NewFromInt _ _ hexp, if_pos (by omega)]
      decide
  · intro hneg hlow
    have hb : u.natAbs ≤ 2 ^ 53 := by omega
    have hc : float64 1000 = 1000 := float64_exact 1000 (by decide)
    have hmin : math.Min (float64 u) (float64 1000) = u := by
      rw [hc, float64_exact_le u hb]; unfold math.Min
      rw [if_pos (by omega)]
    rw [hmin]
    obtain ⟨hval, hexp⟩ := NewFromFloat_denotes u hb
    refine ⟨?_, ?_, ?_⟩
    · simp only [Decimal.Equal]
      rw [Cmp_NewFromInt _ _ hexp, hval]
      simp
    · simp only [Decimal.IntPart, hexp, if_true]
      exact hval
    · rw [Cmp_NewFromInt _ _ hexp, hval, if_pos hneg]

/-- C16 at usage -5: the quantity is the decimal of -5. -/
theorem C16_lite_quantity_bounds_witness :
    ∃ c d, EnSubscriptionFirefoxOutboundPushMessagesCostComponent
        ⟨"a", "us-south", "s", "lite", some (-5)⟩ = Except.ok c ∧
      c.MonthlyQuantity = some d ∧ d.Cmp (NewFromInt 1000) ≤ 0 ∧
      d.Equal (NewFromInt (-5)) = true ∧ d.IntPart = -5 := by
  obtain ⟨c, d, hc, hd, hle, hneg⟩ :=
    C16_lite_quantity_bounds ⟨"a", "us-south", "s", "lite", some (-5)⟩ (-5) rfl rfl
      (by decide) (by decide)
  obtain ⟨heq, hint, _⟩ := hneg (by decide) (by decide)
  exact ⟨c, d, hc, hd, hle, heq, hint⟩

end ibm

/-! ## The resolver on the memory model -/

namespace heap

theorem getElem?_append_add {α : Type} (l l' : List α) (k : Nat) :
    (l ++ l')[l.length + k]? = l'[k]? := by
  rw [List.getElem?_append_right (Nat.le_add_right _ _)]
  simp

theorem getElem?_append_length {α : Type} (l l' : List α) :
    (l ++ l')[l.length]? = l'[0]? := by
  have := getElem?_append_add l l' 0
  simpa using this

theorem getElem?_append_some {α : Type} (l l' : List α) (a : Nat) (o : α)
    (h : l[a]? = some o) : (l ++ l')[a]? = some o := by
  have hlt : a < l.length := by
    by_contra hge
    rw [List.getElem?_eq_none (not_lt.mp hge)] at h
    cases h
  rw [List.getElem?_append_left hlt]
  exact h

theorem getElem?_lt_length {α : Type} (l : List α) (a : Nat) (o : α)
    (h : l[a]? = some o) : a < l.length := by
  by_contra hge
  rw [List.getElem?_eq_none (not_lt.mp hge)] at h
  cases h

end heap

namespace ibm

namespace onHeap

open decimal heap

theorem run_lite (m : Memory) (u : Int) (hplan : m.receiver.Plan = "lite")
    (husage : m.receiver.EnSubscriptionFirefox_OutboundPushMessages = some u) :
    EnSubscriptionFirefoxOutboundPushMessagesCostComponent.run m = Except.ok
      (m.objects.length + 6,
        { m with objects := m.objects ++
            [Object.decimal (NewFromFloat (math.Min (float64 u) (float64 1000))),
             Object.string "ibm",
             Object.string m.receiver.Region,
             Object.string "event-notifications",
             Object.productFilter
               { VendorName := some (StringPtr.cell (m.objects.length + 1)),
                 Region := some (StringPtr.cell (m.objects.length + 2)),
                 Service := some (StringPtr.cell (m.objects.length + 3)) },
             Object.decimal (NewFromInt 0),
             Object.costComponent
               { Name := "Outbound Firefox Push Messages (Lite plan) (Max. 1,000 per destination)"
                 Unit := "Messages"
                 UnitMultiplier := NewFromInt 1
                 MonthlyQuantity := some m.objects.length
                 ProductFilter := some (m.objects.length + 4)
                 customPrice := some (m.objects.length + 5) }] }) := by
  unfold EnSubscriptionFirefoxOutboundPushMessagesCostComponent
  simp [hplan, husage, strPtr, decimalPtr, alloc, heap.CostComponent.SetCustomPrice]
  rfl

theorem run_lite_nil (m : Memory) (hplan : m.receiver.Plan = "lite")
    (husage : m.receiver.EnSubscriptionFirefox_OutboundPushMessages = none) :
    EnSubscriptionFirefoxOutboundPushMessagesCostComponent.run m =
      Except.error Panic.nilDereference := by
  unfold EnSubscriptionFirefoxOutboundPushMessagesCostComponent
  simp [hplan, husage]
  rfl

theorem run_standard (m : Memory) (u : Int) (hplan : m.receiver.Plan = "standard")
    (husage : m.receiver.EnSubscriptionFirefox_OutboundPushMessages = some u) :
    EnSubscriptionFirefoxOutboundPushMessagesCostComponent.run m = Except.ok
      (m.objects.length + 9,
        { m with objects := m.objects ++
            [Object.decimal (NewFromInt u),
             Object.string "ibm",
             Object.string m.receiver.Region,
             Object.string "event-notifications",
             Object.attributeFilter
               { Key := "planName", Value := some StringPtr.receiverPlan },
             Object.pointers [m.objects.length + 4],
             Object.productFilter
               { VendorName := some (StringPtr.cell (m.objects.length + 1)),
                 Region := some (StringPtr.cell (m.objects.length + 2)),
                 Service := some (StringPtr.cell (m.objects.length + 3)),
                 AttributeFilters := some (m.objects.length + 5) },
             Object.string "OUTBOUND_DIGITAL_MESSAGES_PUSH",
             Object.priceFilter { Unit := some (StringPtr.cell (m.objects.length + 7)) },
             Object.costComponent
               { Name := "Outbound Firefox Push Messages (Standard plan)"
                 Unit := "Messages"
                 UnitMultiplier := NewFromInt 1
                 MonthlyQuantity := some m.objects.length
                 ProductFilter := some (m.objects.length + 6)
                 PriceFilter := some (m.objects.length + 8) }] }) := by
  have hne : ¬ m.receiver.Plan = "lite" := by rw [hplan]; decide
  unfold EnSubscriptionFirefoxOutboundPushMessagesCostComponent
  simp [hne, hplan, husage, strPtr, decimalPtr, alloc]
  rfl

theorem run_standard_nil (m : Memory) (hplan : m.receiver.Plan = "standard")
    (husage : m.receiver.EnSubscriptionFirefox_OutboundPushMessages = none) :
    EnSubscriptionFirefoxOutboundPushMessagesCostComponent.run m = Except.ok
      (m.objects.length + 8,
        { m with objects := m.objects ++
            [Object.string "ibm",
             Object.string m.receiver.Region,
             Object.string "event-notifications",
             Object.attributeFilter
               { Key := "planName", Value := some StringPtr.receiverPlan },
             Object.pointers [m.objects.length + 3],
             Object.productFilter
               { VendorName := some (StringPtr.cell m.objects.length),
                 Region := some (StringPtr.cell (m.objects.length + 1)),
                 Service := some (StringPtr.cell (m.objects.length + 2)),
                 AttributeFilters := some (m.objects.length + 4) },
             Object.string "OUTBOUND_DIGITAL_MESSAGES_PUSH",
             Object.priceFilter { Unit := some (StringPtr.cell (m.objects.length + 6)) },
             Object.costComponent
               { Name := "Outbound Firefox Push Messages (Standard plan)"
                 Unit := "Messages"
                 UnitMultiplier := NewFromInt 1
                 MonthlyQuantity := none
                 ProductFilter := some (m.objects.length + 5)
                 PriceFilter := some (m.objects.length + 7) }] }) := by
  have hne : ¬ m.receiver.Plan = "lite" := by rw [hplan]; decide
  unfold EnSubscriptionFirefoxOutboundPushMessagesCostComponent
  simp [hne, hplan, husage, strPtr, decimalPtr, alloc]
  rfl

theorem run_other (m : Memory) (h1 : m.receiver.Plan ≠ "lite")
    (h2 : m.receiver.Plan ≠ "standard") :
    EnSubscriptionFirefoxOutboundPushMessagesCostComponent.run m = Except.ok
      (m.objects.length + 8,
        { m with objects := m.objects ++
            [Object.decimal (NewFromInt 1),
             Object.string "ibm",
             Object.string m.receiver.Region,
             Object.string "event-notifications",
             Object.attributeFilter
               { Key := "planName", Value := some StringPtr.receiverPlan },
             Object.pointers [m.objects.length + 4],
             Object.productFilter
               { VendorName := some (StringPtr.cell (m.objects.length + 1)),
                 Region := some (StringPtr.cell (m.objects.length + 2)),
                 Service := some (StringPtr.cell (m.objects.length + 3)),
                 AttributeFilters := some (m.objects.length + 5) },
             Object.decimal (NewFromInt 0),
             Object.costComponent
               { Name := "Plan " ++ m.receiver.Plan ++ " not found"
                 UnitMultiplier := NewFromInt 1
                 MonthlyQuantity := some m.objects.length
                 ProductFilter := some (m.objects.length + 6)
                 customPrice := some (m.objects.length + 7) }] }) := by
  unfold EnSubscriptionFirefoxOutboundPushMessagesCostComponent
  simp [h1, h2, strPtr, decimalPtr, alloc, heap.CostComponent.SetCustomPrice]
  rfl

end onHeap

end ibm

namespace ibm

namespace onHeap

open decimal heap

/-- Refinement: where the function on values returns a descriptor, the state transformer
returns the address of a new object behind the existing ones, and the descriptor read at that
address, every pointer followed, is the one of the function on values. -/
theorem costComponent_run_ok (m : Memory) (c : schema.CostComponent)
    (h : ibm.EnSubscriptionFirefoxOutboundPushMessagesCostComponent m.receiver = Except.ok c) :
    ∃ p l, EnSubscriptionFirefoxOutboundPushMessagesCostComponent.run m =
        Except.ok (p, { m with objects := m.objects ++ l }) ∧
      m.objects.length ≤ p ∧ p < m.objects.length + l.length ∧
      ({ m with objects := m.objects ++ l } : Memory).costComponent p = some c := by
  rcases costComponent_cases m.receiver c h with ⟨hl, u, hu, e⟩ | ⟨hs, e⟩ | ⟨hl, hs, e⟩
  · refine ⟨_, _, run_lite m u hl hu, by omega, by simp, ?_⟩
    subst e
    simp [Memory.costComponent, Memory.optDecimal, Memory.optProductFilter,
      Memory.optPriceFilter, Memory.optString, Memory.string, Memory.attributeFilters,
      getElem?_append_add, getElem?_append_length, List.getElem?_cons_zero, List.getElem?_cons_succ,
      -List.getElem?_eq_getElem]
  · cases hu : m.receiver.EnSubscriptionFirefox_OutboundPushMessages with
    | none =>
      refine ⟨_, _, run_standard_nil m hs hu, by omega, by simp, ?_⟩
      subst e
      simp [Memory.costComponent, Memory.optDecimal, Memory.optProductFilter,
        Memory.optPriceFilter, Memory.optString, Memory.string, Memory.attributeFilters,
        Memory.attributeFilter, allSome, getElem?_append_add, getElem?_append_length, hu, List.getElem?_cons_zero, List.getElem?_cons_succ,
      -List.getElem?_eq_getElem]
    | some u =>
      refine ⟨_, _, run_standard m u hs hu, by omega, by simp, ?_⟩
      subst e
      simp [Memory.costComponent, Memory.optDecimal, Memory.optProductFilter,
        Memory.optPriceFilter, Memory.optString, Memory.string, Memory.attributeFilters,
        Memory.attributeFilter, allSome, getElem?_append_add, getElem?_append_length, hu, List.getElem?_cons_zero, List.getElem?_cons_succ,
      -List.getElem?_eq_getElem]
  · refine ⟨_, _, run_other m hl hs, by omega, by simp, ?_⟩
    subst e
    simp [Memory.costComponent, Memory.optDecimal, Memory.optProductFilter,
      Memory.optPriceFilter, Memory.optString, Memory.string, Memory.attributeFilters,
      Memory.attributeFilter, allSome, getElem?_append_add, getElem?_append_length, List.getElem?_cons_zero, List.getElem?_cons_succ,
      -List.getElem?_eq_getElem]

/-- Where the function on values panics, so does the state transformer. -/
theorem costComponent_run_error (m : Memory) (e : Panic)
    (h : ibm.EnSubscriptionFirefoxOutboundPushMessagesCostComponent m.receiver =
      Except.error e) :
    EnSubscriptionFirefoxOutboundPushMessagesCostComponent.run m = Except.error e := by
  by_cases hl : m.receiver.Plan = "lite"
  · cases hu : m.receiver.EnSubscriptionFirefox_OutboundPushMessages with
    | none =>
      rw [lite_nil_costComponent m.receiver hl hu] at h
      rw [run_lite_nil m hl hu, ← Except.error.inj h]
    | some u =>
      rw [lite_costComponent m.receiver u hl hu] at h
      cases h
  · by_cases hs : m.receiver.Plan = "standard"
    · rw [standard_costComponent m.receiver hs] at h
      cases h
    · rw [other_costComponent m.receiver hl hs] at h
      cases h

end onHeap

end ibm

namespace heap

/-! Reading through pointers is not disturbed by later allocations. -/

theorem string_grow (m m' : Memory) (l : List Object) (hr : m'.receiver = m.receiver)
    (ho : m'.objects = m.objects ++ l) (p : StringPtr) (s : String)
    (h : m.string p = some s) : m'.string p = some s := by
  cases p with
  | receiverPlan =>
    simp only [Memory.string] at h ⊢
    rw [hr]; exact h
  | cell a =>
    simp only [Memory.string] at h ⊢
    cases hlook : m.objects[a]? with
    | none => rw [hlook] at h; cases h
    | some o =>
      rw [ho, getElem?_append_some _ l a o hlook]
      rw [hlook] at h; exact h

theorem optString_grow (m m' : Memory) (l : List Object) (hr : m'.receiver = m.receiver)
    (ho : m'.objects = m.objects ++ l) (p : Option StringPtr) (s : Option String)
    (h : m.optString p = some s) : m'.optString p = some s := by
  cases p with
  | none => exact h
  | some q =>
    simp only [Memory.optString] at h ⊢
    cases hq : m.string q with
    | none => rw [hq] at h; cases h
    | some t =>
      rw [string_grow m m' l hr ho q t hq]
      rw [hq] at h; exact h

theorem optDecimal_grow (m m' : Memory) (l : List Object)
    (ho : m'.objects = m.objects ++ l) (p : Option Nat) (d : Option decimal.Decimal)
    (h : m.optDecimal p = some d) : m'.optDecimal p = some d := by
  cases p with
  | none => exact h
  | some a =>
    simp only [Memory.optDecimal] at h ⊢
    cases hlook : m.objects[a]? with
    | none => rw [hlook] at h; cases h
    | some o =>
      rw [ho, getElem?_append_some _ l a o hlook]
      rw [hlook] at h; exact h

theorem attributeFilter_grow (m m' : Memory) (l : List Object) (hr : m'.receiver = m.receiver)
    (ho : m'.objects = m.objects ++ l) (a : Nat) (f : schema.AttributeFilter)
    (h : m.attributeFilter a = some f) : m'.attributeFilter a = some f := by
  simp only [Memory.attributeFilter] at h ⊢
  cases hlook : m.objects[a]? with
  | none => rw [hlook] at h; cases h
  | some o =>
    rw [ho, getElem?_append_some _ l a o hlook]
    rw [hlook] at h
    cases o with
    | attributeFilter g =>
      simp only at h ⊢
      cases hv : m.optString g.Value with
      | none => rw [hv] at h; cases h
      | some v =>
        cases hvr : m.optString g.ValueRegex with
        | none => rw [hv, hvr] at h; cases h
        | some vr =>
          rw [optString_grow m m' l hr ho _ _ hv, optString_grow m m' l hr ho _ _ hvr]
          rw [hv, hvr] at h; exact h
    | _ => cases h

theorem allSome_grow {α : Type} (f g : Nat → Option α)
    (hfg : ∀ a v, f a = some v → g a = some v) (elems : List Nat) (vs : List α)
    (h : allSome (elems.map f) = some vs) : allSome (elems.map g) = some vs := by
  induction elems generalizing vs with
  | nil => exact h
  | cons a rest ih =>
    simp only [List.map_cons] at h ⊢
    cases ha : f a with
    | none => rw [ha] at h; simp [allSome] at h
    | some v =>
      rw [ha] at h
      rw [hfg a v ha]
      simp only [allSome] at h ⊢
      cases hrest : allSome (rest.map f) with
      | none => rw [hrest] at h; cases h
      | some ws =>
        rw [ih ws hrest]
        rw [hrest] at h; exact h

theorem attributeFilters_grow (m m' : Memory) (l : List Object)
    (hr : m'.receiver = m.receiver) (ho : m'.objects = m.objects ++ l) (p : Option Nat)
    (fs : List schema.AttributeFilter) (h : m.attributeFilters p = some fs) :
    m'.attributeFilters p = some fs := by
  cases p with
  | none => exact h
  | some a =>
    simp only [Memory.attributeFilters] at h ⊢
    cases hlook : m.objects[a]? with
    | none => rw [hlook] at h; cases h
    | some o =>
      rw [ho, getElem?_append_some _ l a o hlook]
      rw [hlook] at h
      cases o with
      | pointers elems =>
        simp only at h ⊢
        exact allSome_grow _ _ (attributeFilter_grow m m' l hr ho) elems fs h
      | _ => cases h

theorem optProductFilter_grow (m m' : Memory) (l : List Object)
    (hr : m'.receiver = m.receiver) (ho : m'.objects = m.objects ++ l) (p : Option Nat)
    (f : Option schema.ProductFilter) (h : m.optProductFilter p = some f) :
    m'.optProductFilter p = some f := by
  cases p with
  | none => exact h
  | some a =>
    simp only [Memory.optProductFilter] at h ⊢
    cases hlook : m.objects[a]? with
    | none => rw [hlook] at h; cases h
    | some o =>
      rw [ho, getElem?_append_some _ l a o hlook]
      rw [hlook] at h
      cases o with
      | productFilter g =>
        simp only at h ⊢
        cases h1 : m.optString g.VendorName with
        | none => rw [h1] at h; cases h
        | some v1 =>
          cases h2 : m.optString g.Service with
          | none => rw [h1, h2] at h; cases h
          | some v2 =>
            cases h3 : m.optString g.Region with
            | none => rw [h1, h2, h3] at h; cases h
            | some v3 =>
              cases h4 : m.attributeFilters g.AttributeFilters with
              | none => rw [h1, h2, h3, h4] at h; cases h
              | some v4 =>
                rw [optString_grow m m' l hr ho _ _ h1, optString_grow m m' l hr ho _ _ h2,
                  optString_grow m m' l hr ho _ _ h3,
                  attributeFilters_grow m m' l hr ho _ _ h4]
                rw [h1, h2, h3, h4] at h; exact h
      | _ => cases h

theorem optPriceFilter_grow (m m' : Memory) (l : List Object)
    (hr : m'.receiver = m.receiver) (ho : m'.objects = m.objects ++ l) (p : Option Nat)
    (f : Option schema.PriceFilter) (h : m.optPriceFilter p = some f) :
    m'.optPriceFilter p = some f := by
  cases p with
  | none => exact h
  | some a =>
    simp only [Memory.optPriceFilter] at h ⊢
    cases hlook : m.objects[a]? with
    | none => rw [hlook] at h; cases h
    | some o =>
      rw [ho, getElem?_append_some _ l a o hlook]
      rw [hlook] at h
      cases o with
      | priceFilter g =>
        simp only at h ⊢
        cases h1 : m.optString g.Unit with
        | none => rw [h1] at h; cases h
        | some v1 =>
          rw [optString_grow m m' l hr ho _ _ h1]
          rw [h1] at h; exact h
      | _ => cases h

theorem costComponent_grow (m m' : Memory) (l : List Object)
    (hr : m'.receiver = m.receiver) (ho : m'.objects = m.objects ++ l) (a : Nat)
    (c : schema.CostComponent) (h : m.costComponent a = some c) :
    m'.costComponent a = some c := by
  simp only [Memory.costComponent] at h ⊢
  cases hlook : m.objects[a]? with
  | none => rw [hlook] at h; cases h
  | some o =>
    rw [ho, getElem?_append_some _ l a o hlook]
    rw [hlook] at h
    cases o with
    | costComponent g =>
      simp only at h ⊢
      cases h1 : m.optDecimal g.MonthlyQuantity with
      | none => rw [h1] at h; cases h
      | some v1 =>
        cases h2 : m.optProductFilter g.ProductFilter with
        | none => rw [h1, h2] at h; cases h
        | some v2 =>
          cases h3 : m.optPriceFilter g.PriceFilter with
          | none => rw [h1, h2, h3] at h; cases h
          | some v3 =>
            cases h4 : m.optDecimal g.customPrice with
            | none => rw [h1, h2, h3, h4] at h; cases h
            | some v4 =>
              rw [optDecimal_grow m m' l ho _ _ h1, optProductFilter_grow m m' l hr ho _ _ h2,
                optPriceFilter_grow m m' l hr ho _ _ h3, optDecimal_grow m m' l ho _ _ h4]
              rw [h1, h2, h3, h4] at h; exact h
    | _ => cases h

end heap

namespace heap

theorem usageItem_grow (m m' : Memory) (l : List Object)
    (ho : m'.objects = m.objects ++ l) (a : Nat) (u : schema.UsageItem)
    (h : m.usageItem a = some u) : m'.usageItem a = some u := by
  simp only [Memory.usageItem] at h ⊢
  cases hlook : m.objects[a]? with
  | none => rw [hlook] at h; cases h
  | some o =>
    rw [ho, getElem?_append_some _ l a o hlook]
    rw [hlook] at h; exact h

theorem usageItems_grow (m m' : Memory) (l : List Object)
    (ho : m'.objects = m.objects ++ l) (p : Option Nat) (us : List schema.UsageItem)
    (h : m.usageItems p = some us) : m'.usageItems p = some us := by
  cases p with
  | none => exact h
  | some a =>
    simp only [Memory.usageItems] at h ⊢
    cases hlook : m.objects[a]? with
    | none => rw [hlook] at h; cases h
    | some o =>
      rw [ho, getElem?_append_some _ l a o hlook]
      rw [hlook] at h
      cases o with
      | pointers elems =>
        simp only at h ⊢
        exact allSome_grow _ _ (usageItem_grow m m' l ho) elems us h
      | _ => cases h

theorem costComponents_grow (m m' : Memory) (l : List Object)
    (hr : m'.receiver = m.receiver) (ho : m'.objects = m.objects ++ l) (p : Option Nat)
    (cs : List schema.CostComponent) (h : m.costComponents p = some cs) :
    m'.costComponents p = some cs := by
  cases p with
  | none => exact h
  | some a =>
    simp only [Memory.costComponents] at h ⊢
    cases hlook : m.objects[a]? with
    | none => rw [hlook] at h; cases h
    | some o =>
      rw [ho, getElem?_append_some _ l a o hlook]
      rw [hlook] at h
      cases o with
      | pointers elems =>
        simp only at h ⊢
        exact allSome_grow _ _ (costComponent_grow m m' l hr ho) elems cs h
      | _ => cases h

theorem resource_grow (m m' : Memory) (l : List Object)
    (hr : m'.receiver = m.receiver) (ho : m'.objects = m.objects ++ l) (a : Nat)
    (r : schema.Resource) (h : m.resource a = some r) : m'.resource a = some r := by
  simp only [Memory.resource] at h ⊢
  cases hlook : m.objects[a]? with
  | none => rw [hlook] at h; cases h
  | some o =>
    rw [ho, getElem?_append_some _ l a o hlook]
    rw [hlook] at h
    cases o with
    | resource g =>
      simp only at h ⊢
      cases h1 : m.usageItems g.UsageSchema with
      | none => rw [h1] at h; cases h
      | some v1 =>
        cases h2 : m.costComponents g.CostComponents with
        | none => rw [h1, h2] at h; cases h
        | some v2 =>
          rw [usageItems_grow m m' l ho _ _ h1, costComponents_grow m m' l hr ho _ _ h2]
          rw [h1, h2] at h; exact h
    | _ => cases h

end heap

namespace ibm

namespace onHeap

open decimal heap

/-- The run of `BuildResource` in terms of the run of the cost component function: two more
objects, the backing array of the slice literal and the resource. -/
theorem buildResource_run (m m1 : Memory) (pc : Nat)
    (h : EnSubscriptionFirefoxOutboundPushMessagesCostComponent.run m = Except.ok (pc, m1)) :
    BuildResource.run m = Except.ok
      (m1.objects.length + 1,
        { m1 with objects := m1.objects ++
            [Object.pointers [pc],
             Object.resource
               { Name := m1.receiver.Address
                 UsageSchema := m1.EnSubscriptionFirefoxUsageSchema
                 CostComponents := some m1.objects.length }] }) := by
  unfold BuildResource
  simp [h, alloc]

theorem buildResource_run_error (m : Memory) (e : Panic)
    (h : EnSubscriptionFirefoxOutboundPushMessagesCostComponent.run m = Except.error e) :
    BuildResource.run m = Except.error e := by
  unfold BuildResource
  simp [h]
  rfl

end onHeap

end ibm

namespace ibm

namespace onHeap

open decimal heap

/-- Every returning call of the cost component function on the memory: the memory afterwards
is the memory before with new objects behind the existing ones, and the descriptor at the
returned address is the descriptor of the function on values. -/
theorem costComponent_call (m m1 : Memory) (p1 : Nat)
    (h : EnSubscriptionFirefoxOutboundPushMessagesCostComponent.run m = Except.ok (p1, m1)) :
    ∃ c l, ibm.EnSubscriptionFirefoxOutboundPushMessagesCostComponent m.receiver = Except.ok c ∧
      m1 = { m with objects := m.objects ++ l } ∧
      m.objects.length ≤ p1 ∧ p1 < m1.objects.length ∧ m1.costComponent p1 = some c := by
  cases hp : ibm.EnSubscriptionFirefoxOutboundPushMessagesCostComponent m.receiver with
  | error e =>
    rw [costComponent_run_error m e hp] at h
    cases h
  | ok c =>
    obtain ⟨p, l, hrun, hle, hlt, hload⟩ := costComponent_run_ok m c hp
    rw [hrun] at h
    have hpm := Except.ok.inj h
    have h1 : p = p1 := congrArg Prod.fst hpm
    have h2 : ({ m with objects := m.objects ++ l } : Memory) = m1 := congrArg Prod.snd hpm
    subst h1 h2
    exact ⟨c, l, rfl, rfl, hle, by simpa using hlt, hload⟩

/-- The memory after `BuildResource` has allocated behind the memory `mc` left by the cost
component function, whose descriptor is at `pc`. -/
theorem resource_loaded (mc : Memory) (pc : Nat) (c : schema.CostComponent)
    (hload : mc.costComponent pc = some c) (m1 : Memory)
    (hm1 : m1 = { mc with objects := mc.objects ++
      [Object.pointers [pc],
       Object.resource
         { Name := mc.receiver.Address
           UsageSchema := mc.EnSubscriptionFirefoxUsageSchema
           CostComponents := some mc.objects.length }] }) :
    m1.objects[mc.objects.length + 1]? = some (Object.resource
      { Name := mc.receiver.Address
        UsageSchema := mc.EnSubscriptionFirefoxUsageSchema
        CostComponents := some mc.objects.length }) ∧
    m1.costComponents (some mc.objects.length) = some [c] ∧
    ∀ us, mc.usageItems mc.EnSubscriptionFirefoxUsageSchema = some us →
      m1.resource (mc.objects.length + 1) =
        some { Name := mc.receiver.Address, UsageSchema := us, CostComponents := [c] } := by
  have hr : m1.receiver = mc.receiver := by rw [hm1]
  have ho : m1.objects = mc.objects ++
      [Object.pointers [pc],
       Object.resource
         { Name := mc.receiver.Address
           UsageSchema := mc.EnSubscriptionFirefoxUsageSchema
           CostComponents := some mc.objects.length }] := by rw [hm1]
  have hc := costComponent_grow mc m1 _ hr ho pc c hload
  have hres : m1.objects[mc.objects.length + 1]? = some (Object.resource
      { Name := mc.receiver.Address
        UsageSchema := mc.EnSubscriptionFirefoxUsageSchema
        CostComponents := some mc.objects.length }) := by
    rw [ho, getElem?_append_add]
    rfl
  have hcs : m1.costComponents (some mc.objects.length) = some [c] := by
    simp only [Memory.costComponents]
    rw [ho, getElem?_append_length]
    simp only [List.getElem?_cons_zero, List.map_cons, List.map_nil]
    rw [hc]
    rfl
  refine ⟨hres, hcs, ?_⟩
  intro us hus
  have hus1 := usageItems_grow mc m1 _ ho _ us hus
  simp only [Memory.resource]
  rw [hres]
  simp only
  rw [hus1, hcs]

/-- Every returning call of `BuildResource` on the memory goes through a returning call of
the cost component function and then allocates the slice and the resource. -/
theorem buildResource_call (m m1 : Memory) (p1 : Nat)
    (h : BuildResource.run m = Except.ok (p1, m1)) :
    ∃ pc mc,
      EnSubscriptionFirefoxOutboundPushMessagesCostComponent.run m = Except.ok (pc, mc) ∧
      p1 = mc.objects.length + 1 ∧
      m1 = { mc with objects := mc.objects ++
        [Object.pointers [pc],
         Object.resource
           { Name := mc.receiver.Address
             UsageSchema := mc.EnSubscriptionFirefoxUsageSchema
             CostComponents := some mc.objects.length }] } := by
  cases hcc : EnSubscriptionFirefoxOutboundPushMessagesCostComponent.run m with
  | error e =>
    rw [buildResource_run_error m e hcc] at h
    cases h
  | ok r =>
    obtain ⟨pc, mc⟩ := r
    rw [buildResource_run m mc pc hcc] at h
    have hpm := Except.ok.inj h
    exact ⟨pc, mc, rfl, (congrArg Prod.fst hpm).symm, (congrArg Prod.snd hpm).symm⟩

/-- A panic of the state transformer is a panic of the function on values, and conversely. -/
theorem costComponent_run_error_iff (m : Memory) (e : Panic) :
    EnSubscriptionFirefoxOutboundPushMessagesCostComponent.run m = Except.error e ↔
      ibm.EnSubscriptionFirefoxOutboundPushMessagesCostComponent m.receiver =
        Except.error e := by
  constructor
  · intro h
    cases hp : ibm.EnSubscriptionFirefoxOutboundPushMessagesCostComponent m.receiver with
    | error e' =>
      have h' := (costComponent_run_error m e' hp).symm.trans h
      rw [Except.error.inj h']
    | ok c =>
      obtain ⟨p, l, hrun, _⟩ := costComponent_run_ok m c hp
      rw [hrun] at h
      cases h
  · exact costComponent_run_error m e

theorem buildResource_run_error_iff (m : Memory) (e : Panic) :
    BuildResource.run m = Except.error e ↔ ibm.BuildResource m.receiver = Except.error e := by
  constructor
  · intro h
    cases hp : ibm.EnSubscriptionFirefoxOutboundPushMessagesCostComponent m.receiver with
    | error e' =>
      rw [buildResource_run_error m e' (costComponent_run_error m e' hp)] at h
      unfold ibm.BuildResource
      rw [hp, Except.error.inj h]
    | ok c =>
      obtain ⟨p, l, hrun, _⟩ := costComponent_run_ok m c hp
      rw [buildResource_run m _ p hrun] at h
      cases h
  · intro h
    cases hp : ibm.EnSubscriptionFirefoxOutboundPushMessagesCostComponent m.receiver with
    | error e' =>
      unfold ibm.BuildResource at h
      rw [hp] at h
      rw [← Except.error.inj h]
      exact buildResource_run_error m e' (costComponent_run_error m e' hp)
    | ok c =>
      rw [buildResource_ok m.receiver c hp] at h
      cases h

/-- Two successive returning calls of the cost component function. -/
theorem costComponent_twice (m m1 : Memory) (p1 : Nat)
    (h : EnSubscriptionFirefoxOutboundPushMessagesCostComponent.run m = Except.ok (p1, m1)) :
    m1.receiver = m.receiver ∧
    m1.EnSubscriptionFirefoxUsageSchema = m.EnSubscriptionFirefoxUsageSchema ∧
    (∃ l, m1.objects = m.objects ++ l) ∧
    ∃ c p2 m2,
      ibm.EnSubscriptionFirefoxOutboundPushMessagesCostComponent m.receiver = Except.ok c ∧
      m1.costComponent p1 = some c ∧
      EnSubscriptionFirefoxOutboundPushMessagesCostComponent.run m1 = Except.ok (p2, m2) ∧
      m2.receiver = m.receiver ∧
      m2.EnSubscriptionFirefoxUsageSchema = m.EnSubscriptionFirefoxUsageSchema ∧
      (∃ l, m2.objects = m1.objects ++ l) ∧
      p1 ≠ p2 ∧ m2.costComponent p1 = some c ∧ m2.costComponent p2 = some c := by
  obtain ⟨c, l, hpure, hm1, hle, hlt, hload⟩ := costComponent_call m m1 p1 h
  have hr1 : m1.receiver = m.receiver := by rw [hm1]
  have hv1 : m1.EnSubscriptionFirefoxUsageSchema = m.EnSubscriptionFirefoxUsageSchema := by
    rw [hm1]
  have ho1 : m1.objects = m.objects ++ l := by rw [hm1]
  have hpure1 : ibm.EnSubscriptionFirefoxOutboundPushMessagesCostComponent m1.receiver =
      Except.ok c := by rw [hr1]; exact hpure
  obtain ⟨p2, l2, hrun2, hle2, hlt2, hload2⟩ := costComponent_run_ok m1 c hpure1
  exact ⟨hr1, hv1, ⟨l, ho1⟩, c, p2, _, hpure, hload, hrun2, hr1, hv1, ⟨l2, rfl⟩, by omega,
    costComponent_grow m1 { m1 with objects := m1.objects ++ l2 } l2 rfl rfl p1 c hload,
    hload2⟩

/-- Two successive returning calls of `BuildResource`. -/
theorem buildResource_twice (m m1 : Memory) (p1 : Nat)
    (h : BuildResource.run m = Except.ok (p1, m1)) :
    m1.receiver = m.receiver ∧
    m1.receiver.Address = m.receiver.Address ∧ m1.receiver.Region = m.receiver.Region ∧
    m1.receiver.Name = m.receiver.Name ∧ m1.receiver.Plan = m.receiver.Plan ∧
    m1.receiver.EnSubscriptionFirefox_OutboundPushMessages =
      m.receiver.EnSubscriptionFirefox_OutboundPushMessages ∧
    m1.EnSubscriptionFirefoxUsageSchema = m.EnSubscriptionFirefoxUsageSchema ∧
    (∃ l, m1.objects = m.objects ++ l) ∧
    ∃ c p2 m2 o1 o2,
      ibm.EnSubscriptionFirefoxOutboundPushMessagesCostComponent m.receiver = Except.ok c ∧
      BuildResource.run m1 = Except.ok (p2, m2) ∧
      m2.receiver = m.receiver ∧
      m2.EnSubscriptionFirefoxUsageSchema = m.EnSubscriptionFirefoxUsageSchema ∧
      (∃ l, m2.objects = m1.objects ++ l) ∧
      p1 ≠ p2 ∧
      m2.objects[p1]? = some (Object.resource o1) ∧
      m2.objects[p2]? = some (Object.resource o2) ∧
      o1.Name = m.receiver.Address ∧ o2.Name = m.receiver.Address ∧
      o1.UsageSchema = m.EnSubscriptionFirefoxUsageSchema ∧
      o2.UsageSchema = m.EnSubscriptionFirefoxUsageSchema ∧
      m2.costComponents o1.CostComponents = some [c] ∧
      m2.costComponents o2.CostComponents = some [c] ∧
      ∀ us, m.usageItems m.EnSubscriptionFirefoxUsageSchema = some us →
        m1.resource p1 =
          some { Name := m.receiver.Address, UsageSchema := us, CostComponents := [c] } ∧
        m2.resource p1 =
          some { Name := m.receiver.Address, UsageSchema := us, CostComponents := [c] } ∧
        m2.resource p2 =
          some { Name := m.receiver.Address, UsageSchema := us, CostComponents := [c] } ∧
        (us = EnSubscriptionFirefoxUsageSchema →
          ibm.BuildResource m.receiver = Except.ok
            { Name := m.receiver.Address, UsageSchema := us, CostComponents := [c] }) := by
  -- first call
  obtain ⟨pc, mc, hcc, hp1, hm1⟩ := buildResource_call m m1 p1 h
  obtain ⟨c, l, hpure, hmc, _, _, hload⟩ := costComponent_call m mc pc hcc
  have hrc : mc.receiver = m.receiver := by rw [hmc]
  have hvc : mc.EnSubscriptionFirefoxUsageSchema = m.EnSubscriptionFirefoxUsageSchema := by
    rw [hmc]
  have hoc : mc.objects = m.objects ++ l := by rw [hmc]
  obtain ⟨hres1, hcs1, hdeep1⟩ := resource_loaded mc pc c hload m1 hm1
  have hr1 : m1.receiver = m.receiver := by rw [hm1]; exact hrc
  have hv1 : m1.EnSubscriptionFirefoxUsageSchema = m.EnSubscriptionFirefoxUsageSchema := by
    rw [hm1]; exact hvc
  have ho1c : m1.objects = mc.objects ++
      [Object.pointers [pc],
       Object.resource
         { Name := mc.receiver.Address
           UsageSchema := mc.EnSubscriptionFirefoxUsageSchema
           CostComponents := some mc.objects.length }] := by rw [hm1]
  have ho1 : ∃ l', m1.objects = m.objects ++ l' :=
    ⟨_, by rw [ho1c, hoc, List.append_assoc]⟩
  have hlen1 : m1.objects.length = mc.objects.length + 2 := by
    rw [ho1c]; simp
  -- second call
  have hpure1 : ibm.EnSubscriptionFirefoxOutboundPushMessagesCostComponent m1.receiver =
      Except.ok c := by rw [hr1]; exact hpure
  obtain ⟨pc2, mc2, hcc2, hmc2⟩ :
      ∃ pc2 mc2, EnSubscriptionFirefoxOutboundPushMessagesCostComponent.run m1 =
        Except.ok (pc2, mc2) ∧ True := by
    obtain ⟨p, l2, hrun, _⟩ := costComponent_run_ok m1 c hpure1
    exact ⟨p, _, hrun, trivial⟩
  obtain ⟨c', l2, hpure', hmc2eq, _, _, hload2⟩ := costComponent_call m1 mc2 pc2 hcc2
  have hcc' : c' = c := Except.ok.inj (hpure'.symm.trans hpure1)
  subst hcc'
  have hrc2 : mc2.receiver = m1.receiver := by rw [hmc2eq]
  have hvc2 : mc2.EnSubscriptionFirefoxUsageSchema = m1.EnSubscriptionFirefoxUsageSchema := by
    rw [hmc2eq]
  have hoc2 : mc2.objects = m1.objects ++ l2 := by rw [hmc2eq]
  obtain ⟨m2, hm2⟩ : ∃ m2 : Memory, m2 = { mc2 with objects := mc2.objects ++
      [Object.pointers [pc2],
       Object.resource
         { Name := mc2.receiver.Address
           UsageSchema := mc2.EnSubscriptionFirefoxUsageSchema
           CostComponents := some mc2.objects.length }] } := ⟨_, rfl⟩
  have hrun2 : BuildResource.run m1 = Except.ok (mc2.objects.length + 1, m2) := by
    rw [hm2]; exact buildResource_run m1 mc2 pc2 hcc2
  obtain ⟨hres2, hcs2, hdeep2⟩ := resource_loaded mc2 pc2 c' hload2 m2 hm2
  have hr2 : m2.receiver = m.receiver := by rw [hm2]; exact hrc2.trans hr1
  have hr21 : m2.receiver = m1.receiver := by rw [hm2]; exact hrc2
  have hv2 : m2.EnSubscriptionFirefoxUsageSchema = m.EnSubscriptionFirefoxUsageSchema := by
    rw [hm2]; exact hvc2.trans hv1
  have ho2 : m2.objects = m1.objects ++ (l2 ++
      [Object.pointers [pc2],
       Object.resource
         { Name := mc2.receiver.Address
           UsageSchema := mc2.EnSubscriptionFirefoxUsageSchema
           CostComponents := some mc2.objects.length }]) := by
    rw [hm2]
    show mc2.objects ++ _ = _
    rw [hoc2, List.append_assoc]
  have hlen2 : m1.objects.length ≤ mc2.objects.length := by
    rw [hoc2]; simp
  have hres1' : m2.objects[p1]? = some (Object.resource
      { Name := mc.receiver.Address
        UsageSchema := mc.EnSubscriptionFirefoxUsageSchema
        CostComponents := some mc.objects.length }) := by
    rw [hp1, ho2]
    exact getElem?_append_some _ _ _ _ hres1
  refine ⟨hr1, by rw [hr1], by rw [hr1], by rw [hr1], by rw [hr1], by rw [hr1], hv1, ho1,
    c', mc2.objects.length + 1, m2, _, _, hpure, hrun2, hr2, hv2, ⟨_, ho2⟩, by omega,
    hres1', hres2, ?_, ?_, hvc, hvc2.trans hv1, ?_, hcs2, ?_⟩
  · show mc.receiver.Address = m.receiver.Address
    rw [hrc]
  · show mc2.receiver.Address = m.receiver.Address
    rw [hrc2, hr1]
  · exact costComponents_grow m1 m2 _ hr21 ho2 _ _ hcs1
  · intro us hus
    have husc : mc.usageItems mc.EnSubscriptionFirefoxUsageSchema = some us := by
      rw [hvc]; exact usageItems_grow m mc l hoc _ us hus
    have hus1 : m1.usageItems m1.EnSubscriptionFirefoxUsageSchema = some us := by
      rw [hv1]
      obtain ⟨l', hl'⟩ := ho1
      exact usageItems_grow m m1 l' hl' _ us hus
    have husc2 : mc2.usageItems mc2.EnSubscriptionFirefoxUsageSchema = some us := by
      rw [hvc2]; exact usageItems_grow m1 mc2 l2 hoc2 _ us hus1
    have hd1 := hdeep1 us husc
    have hd2 := hdeep2 us husc2
    rw [hrc] at hd1
    rw [hrc2, hr1] at hd2
    refine ⟨by rw [hp1]; exact hd1, ?_, hd2, ?_⟩
    · rw [hp1]
      exact resource_grow m1 m2 _ hr21 ho2 _ _ hd1
    · intro hus'
      rw [hus']
      exact buildResource_ok m.receiver c' hpure

end onHeap

/-- C9: the resolver is deterministic and does not modify its input. On the memory model, a
returning call of the cost component function or of BuildResource leaves the receiver struct
(address, region, name, plan, usage field), the package variable and every existing object as
they were and only adds new objects; a second call on the memory so obtained returns too, at
a new address, and the two outputs read field by field through their pointers are equal, and
equal to the output of the function on values; the first output is not disturbed by the second
call. A call panics exactly when the function on values does. -/
theorem C9_resolver_deterministic_and_read_only (m : heap.Memory) :
    (∀ p1 m1,
      onHeap.EnSubscriptionFirefoxOutboundPushMessagesCostComponent.run m = Except.ok (p1, m1) →
      m1.receiver = m.receiver ∧
      m1.EnSubscriptionFirefoxUsageSchema = m.EnSubscriptionFirefoxUsageSchema ∧
      (∃ l, m1.objects = m.objects ++ l) ∧
      ∃ c p2 m2,
        EnSubscriptionFirefoxOutboundPushMessagesCostComponent m.receiver = Except.ok c ∧
        m1.costComponent p1 = some c ∧
        onHeap.EnSubscriptionFirefoxOutboundPushMessagesCostComponent.run m1 =
          Except.ok (p2, m2) ∧
        m2.receiver = m.receiver ∧
        m2.EnSubscriptionFirefoxUsageSchema = m.EnSubscriptionFirefoxUsageSchema ∧
        (∃ l, m2.objects = m1.objects ++ l) ∧
        p1 ≠ p2 ∧ m2.costComponent p1 = some c ∧ m2.costComponent p2 = some c) ∧
    (∀ p1 m1, onHeap.BuildResource.run m = Except.ok (p1, m1) →
      m1.receiver = m.receiver ∧
      m1.receiver.Address = m.receiver.Address ∧ m1.receiver.Region = m.receiver.Region ∧
      m1.receiver.Name = m.receiver.Name ∧ m1.receiver.Plan = m.receiver.Plan ∧
      m1.receiver.EnSubscriptionFirefox_OutboundPushMessages =
        m.receiver.EnSubscriptionFirefox_OutboundPushMessages ∧
      m1.EnSubscriptionFirefoxUsageSchema = m.EnSubscriptionFirefoxUsageSchema ∧
      (∃ l, m1.objects = m.objects ++ l) ∧
      ∃ c p2 m2 o1 o2,
        EnSubscriptionFirefoxOutboundPushMessagesCostComponent m.receiver = Except.ok c ∧
        onHeap.BuildResource.run m1 = Except.ok (p2, m2) ∧
        m2.receiver = m.receiver ∧
        m2.EnSubscriptionFirefoxUsageSchema = m.EnSubscriptionFirefoxUsageSchema ∧
        (∃ l, m2.objects = m1.objects ++ l) ∧
        p1 ≠ p2 ∧
        m2.objects[p1]? = some (heap.Object.resource o1) ∧
        m2.objects[p2]? = some (heap.Object.resource o2) ∧
        o1.Name = m.receiver.Address ∧ o2.Name = m.receiver.Address ∧
        o1.UsageSchema = m.EnSubscriptionFirefoxUsageSchema ∧
        o2.UsageSchema = m.EnSubscriptionFirefoxUsageSchema ∧
        m2.costComponents o1.CostComponents = some [c] ∧
        m2.costComponents o2.CostComponents = some [c] ∧
        ∀ us, m.usageItems m.EnSubscriptionFirefoxUsageSchema = some us →
          m1.resource p1 =
            some { Name := m.receiver.Address, UsageSchema := us, CostComponents := [c] } ∧
          m2.resource p1 =
            some { Name := m.receiver.Address, UsageSchema := us, CostComponents := [c] } ∧
          m2.resource p2 =
            some { Name := m.receiver.Address, UsageSchema := us, CostComponents := [c] } ∧
          (us = EnSubscriptionFirefoxUsageSchema →
            BuildResource m.receiver = Except.ok
              { Name := m.receiver.Address, UsageSchema := us, CostComponents := [c] })) ∧
    (∀ e, onHeap.EnSubscriptionFirefoxOutboundPushMessagesCostComponent.run m = Except.error e ↔
      EnSubscriptionFirefoxOutboundPushMessagesCostComponent m.receiver = Except.error e) ∧
    (∀ e, onHeap.BuildResource.run m = Except.error e ↔
      BuildResource m.receiver = Except.error e) :=
  ⟨fun p1 m1 => onHeap.costComponent_twice m m1 p1,
    fun p1 m1 => onHeap.buildResource_twice m m1 p1,
    onHeap.costComponent_run_error_iff m, onHeap.buildResource_run_error_iff m⟩

end ibm

namespace ibm

/-- C9 at the memory of program start with a receiver of plan "lite" and usage 2500: two
successive calls of BuildResource return two different addresses that read as the same
resource, and the receiver is the one before the calls. -/
theorem C9_resolver_deterministic_and_read_only_witness :
    ∃ p1 m1 p2 m2 res,
      onHeap.BuildResource.run
          (heap.Memory.initial ⟨"a", "us-south", "s", "lite", some 2500⟩) =
        Except.ok (p1, m1) ∧
      onHeap.BuildResource.run m1 = Except.ok (p2, m2) ∧
      m2.receiver = ⟨"a", "us-south", "s", "lite", some 2500⟩ ∧ p1 ≠ p2 ∧
      m1.resource p1 = some res ∧ m2.resource p1 = some res ∧ m2.resource p2 = some res ∧
      BuildResource ⟨"a", "us-south", "s", "lite", some 2500⟩ = Except.ok res := by
  have hpure := lite_costComponent ⟨"a", "us-south", "s", "lite", some 2500⟩ 2500 rfl rfl
  obtain ⟨pc, l, hcc, _⟩ := onHeap.costComponent_run_ok
    (heap.Memory.initial ⟨"a", "us-south", "s", "lite", some 2500⟩) _ hpure
  have hrun := onHeap.buildResource_run _ _ pc hcc
  obtain ⟨_, _, _, _, _, _, _, _, c, p2, m2, o1, o2, hc, hrun2, hr2, _, _, hne, _, _, _, _, _, _,
    _, _, hdeep⟩ :=
    (C9_resolver_deterministic_and_read_only
      (heap.Memory.initial ⟨"a", "us-south", "s", "lite", some 2500⟩)).2.1 _ _ hrun
  obtain ⟨h1, h2, h3, h4⟩ := hdeep EnSubscriptionFirefoxUsageSchema rfl
  exact ⟨_, _, p2, m2, _, hrun, hrun2, hr2, hne, h1, h2, h3, h4 rfl⟩

end ibm
